import Mathlib

/-!
Shallow embedding of the symbolic-execution core of the greed/SEtaac EVM
engine: the bitvector term and constraint layer wrapping the SMT solver
(src/SEtaac/utils/z3.py), the symbolic machine state with its construction,
reset and cloning discipline (src/SEtaac/state.py), the control-flow
navigation helpers, the JUMP/JUMPI statement handlers
(src/SEtaac/TAC_ops/flow_ops.py) and the simulation manager stepping loop
(src/greed/sim_manager.py).  The SMT solver itself is treated as a black box
(a `check` function on assertion lists), as the project does; satisfiability
of the embedded constraint language is the semantic predicate `Sat`.
-/

namespace Greed

/-- 2^256, the modulus of the 256-bit bitvector arithmetic used throughout. -/
def W256 : Nat := 2 ^ 256

/-- Bitvector terms: symbolic constants (`z3.BitVec`/`BVS`), concrete values
(`z3.BitVecVal`/`BVV`) and addition (`BV_Add`), the only operations the
embedded code builds. Every term carries its width in bits. -/
inductive BVExpr where
  | bvs (name : String) (width : Nat)
  | bvv (val : Nat) (width : Nat)
  | add (a b : BVExpr)
deriving DecidableEq

/-- Width of a term; `add` follows z3 in taking the width of its operands
(the code only ever adds same-width 256-bit terms). -/
def BVExpr.width : BVExpr → Nat
  | .bvs _ w => w
  | .bvv _ w => w
  | .add a _ => a.width

/-- An environment assigns a natural number to every symbolic-constant name. -/
def Env : Type := String → Nat

/-- Evaluation of a term under an environment, with wraparound at the term's
width, mirroring z3's fixed-width bitvector semantics. -/
def BVExpr.eval (env : Env) : BVExpr → Nat
  | .bvs n w => env n % 2 ^ w
  | .bvv v w => v % 2 ^ w
  | .add a b => (a.eval env + b.eval env) % 2 ^ a.width

/-- The constraint forms the embedded code builds: `Equal`, its negation,
`BV_ULT` and `BV_UGE` (unsigned comparisons). -/
inductive Constr where
  | eq (a b : BVExpr)
  | ne (a b : BVExpr)
  | ult (a b : BVExpr)
  | uge (a b : BVExpr)
deriving DecidableEq

/-- Truth of a constraint under an environment. -/
def Constr.holds (env : Env) : Constr → Prop
  | .eq a b => a.eval env = b.eval env
  | .ne a b => a.eval env ≠ b.eval env
  | .ult a b => a.eval env < b.eval env
  | .uge a b => b.eval env ≤ a.eval env

instance (env : Env) (c : Constr) : Decidable (c.holds env) := by
  cases c <;> simp [Constr.holds] <;> infer_instance

/-- `z3.Not` restricted to the constraint forms above. -/
def Constr.negc : Constr → Constr
  | .eq a b => .ne a b
  | .ne a b => .eq a b
  | .ult a b => .uge a b
  | .uge a b => .ult a b

/-- Satisfiability of a conjunction of constraints: some environment makes
every constraint hold.  This is the semantic ground truth that the
black-box solver `check` function is measured against. -/
def Sat (cs : List Constr) : Prop := ∃ env : Env, ∀ c ∈ cs, c.holds env

/-- Result of a solver `check()` call (`z3.sat` / `z3.unsat` / `z3.unknown`). -/
inductive CheckRes where
  | sat
  | unsat
  | unknown
deriving DecidableEq

/-- A solver `check` is modelled as a function from the entire assertion list
to a result; `push`/`add`/`check`/`pop` on a solver holding `assertions`
amounts to calling it on `assertions ++ [added]`. -/
def SolverCheck : Type := List Constr → CheckRes

/-- Soundness of a solver answer at one query: an `unsat` answer means the
query really has no model.  (z3's unsat answers are sound; no completeness
assumption is needed by the theorems that use this.) -/
def UnsatSound (check : SolverCheck) (q : List Constr) : Prop :=
  check q = .unsat → ¬ Sat q

/-- src/SEtaac/utils/z3.py, is_false: push; add `cond`; result is whether
`check()` returned unsat; pop.  The solver's own assertions are `assertions`. -/
def is_false (check : SolverCheck) (cond : Constr) (assertions : List Constr) : Bool :=
  check (assertions ++ [cond]) = .unsat

/-- src/SEtaac/utils/z3.py, is_true: `is_false(z3.Not(cond))`.  As the source
notes, this differs from `not is_false(cond)` ("may be true"): it asks
whether `cond` is entailed by the assertions, not whether it is satisfiable. -/
def is_true (check : SolverCheck) (cond : Constr) (assertions : List Constr) : Bool :=
  is_false check cond.negc assertions

/-- Association-list lookup (Python `dict.get` / `d[k]` read). -/
def assocLookup {α : Type} (l : List (String × α)) (k : String) : Option α :=
  (l.find? (fun p => p.1 = k)).map (·.2)

/-- Association-list assignment (Python `d[k] = v`): replaces the existing
binding in place, otherwise appends. -/
def assocSet {α : Type} (l : List (String × α)) (k : String) (v : α) : List (String × α) :=
  if l.any (fun p => p.1 = k) then l.map (fun p => if p.1 = k then (k, v) else p)
  else l ++ [(k, v)]

/-- src/SEtaac/utils/z3.py, ctx_or_symbolic: `ctx.get(v, BitVec('%s_%d' % (v, xid), 256))`. -/
def ctx_or_symbolic (v : String) (ctx : List (String × BVExpr)) (xid : Nat) : BVExpr :=
  (assocLookup ctx v).getD (.bvs s!"{v}_{xid}" 256)

/-- A Python value held in a TAC register: the literal booleans, an `int`, or
a symbolic z3 term. -/
inductive Val where
  | pyBool (b : Bool)
  | num (n : Nat)
  | sym (e : BVExpr)
deriving DecidableEq

/-- src/SEtaac/utils/z3.py, concrete: `isinstance(v, numbers.Number)`.
Python `bool` is a `numbers.Number`, so both booleans count as concrete. -/
def concrete : Val → Bool
  | .pyBool _ => true
  | .num _ => true
  | .sym _ => false

/-- The value of a state's program counter: null before entry, a statement id
after CFG navigation, or a raw register value (the JUMP/JUMPI handlers in
src/SEtaac/TAC_ops/flow_ops.py assign `succ.pc = dest` directly). -/
inductive PCv where
  | null
  | sid (s : String)
  | raw (v : Val)
deriving DecidableEq

/-- The exceptions the embedded code can raise. -/
inductive PyExc where
  | symbolicError (msg : String)
  | attributeError (attr : String)
  | keyError (key : String)
  | valueError (msg : String)
  | assertionError (msg : String)
  | vmNoSuccessors
  | vmUnexpectedSuccessors
deriving DecidableEq

deriving instance DecidableEq for Except

/-- The kind of a TAC statement, carrying the operand register names for the
two control-flow opcodes modelled from src/SEtaac/TAC_ops/flow_ops.py; every
other opcode is opaque (its handler is external, spec §1). -/
inductive StmtKind where
  | jump (destination : String)
  | jumpi (condition destination : String)
  | other (name : String)
deriving DecidableEq

/-- `__internal_name__` of a statement kind. -/
def StmtKind.internalName : StmtKind → String
  | .jump _ => "JUMP"
  | .jumpi _ _ => "JUMPI"
  | .other n => n

/-- A TAC statement: `id`, `block_id` and its opcode kind. -/
structure Statement where
  id : String
  block_id : String
  op : StmtKind
deriving DecidableEq

/-- A CFG basic block, as consumed by src/SEtaac/state.py: its id, ordered
statements, successor block ids and the designated fallthrough block id.
Modelled from the spec: the Block class itself is not under src/; the spec
(§6) lists `id`, `statements`, `succ`, `first_ins`, `fallthrough_edge`. -/
structure Block where
  id : String
  statements : List Statement
  succ : List String
  fallthrough_edge : Option String
deriving DecidableEq

/-- The shared read-only project: block and statement tables (the factory)
and the concrete code, of which only the length is ever used. -/
structure Project where
  blocks : List (String × Block)
  stmts : List (String × Statement)
  codeLen : Nat
deriving DecidableEq

/-- `project.factory.block(id)`; a missing id raises a lookup error. -/
def Project.block? (p : Project) (bid : String) : Except PyExc Block :=
  match assocLookup p.blocks bid with
  | some b => .ok b
  | none => .error (.keyError bid)

/-- `project.factory.statement(id)`. -/
def Project.statement? (p : Project) (sid : String) : Except PyExc Statement :=
  match assocLookup p.stmts sid with
  | some s => .ok s
  | none => .error (.keyError sid)

/-- Modelled from the spec: `first_ins` of a block (the Block class is not
under src/); per spec §3 a block is an ordered sequence of statements whose
id matches its first statement's id, so `first_ins` is the first statement. -/
def Block.first_ins? (b : Block) : Except PyExc Statement :=
  match b.statements.head? with
  | some s => .ok s
  | none => .error (.attributeError "first_ins")

/-- A mutable Python container, tagged with its object identity (`aid`).  Two
fields alias exactly when their `aid`s coincide; `dict(d)` / `list(l)` copies
allocate a fresh `aid` with the same content. -/
structure Tagged (α : Type) where
  aid : Nat
  content : α
deriving DecidableEq

/-- The effect, on one tagged container, of a mutation performed through an
alias with identity `aid`: it changes the content exactly when the container
is that very object. -/
def writeThrough {α : Type} (aid : Nat) (f : α → α) (t : Tagged α) : Tagged α :=
  if t.aid = aid then { t with content := f t.content } else t

/-- A LambdaMemory (or the partial-concrete storage variant): its tag, an
optional default value, the write log (newest first) and the back-reference
to the owning state, identified by that state's uuid.
Modelled from the spec where it exceeds src/: the LambdaMemory class is not
under src/; the spec (§3, §4.1) describes a copy-on-write store with a
default value, created with a tag and a state back-reference. -/
structure LambdaMem where
  tag : String
  defaultVal : Option BVExpr
  writes : List (Nat × BVExpr)
  stateId : Nat
  partialConcrete : Bool
deriving DecidableEq

/-- `mem[BVV(i)] = v`: record a write (newest first). -/
def LambdaMem.write (m : LambdaMem) (i : Nat) (v : BVExpr) : LambdaMem :=
  { m with writes := (i, v) :: m.writes }

/-- Read the latest write at a concrete index, if any. -/
def LambdaMem.read? (m : LambdaMem) (i : Nat) : Option BVExpr :=
  (m.writes.find? (fun p => p.1 = i)).map (·.2)

/-- Persistent data of a state plugin.  The solver plugin holds the path
constraints and a disposed flag; globals a key/value scratch; inspect only
the breakpoint keys (the callbacks are arbitrary user code and are passed to
the manager separately). -/
inductive PluginData where
  | solverData (constraints : List Constr) (disposed : Bool)
  | globalsData (entries : List (String × String))
  | inspectData (bp_stmt_ids : List String) (bp_stmt : List String)
deriving DecidableEq

/-- A state plugin: object identity, back-reference to the owning state
(by uuid, installed by `set_state`) and its data.
Modelled from the spec where it exceeds src/: the plugin classes are not
under src/; per spec §4.7 `set_state` installs a back-reference and `copy`
returns an independent plugin with the same data. -/
structure Plugin where
  aid : Nat
  stateId : Nat
  pdata : PluginData
deriving DecidableEq

/-- `returndata = {'size': None, 'instruction_count': None}`. -/
structure ReturnData where
  size : Option Val
  instruction_count : Option Val
deriving DecidableEq

/-- The state's `options` container: a dict at construction, but
`copy()` turns it into a list of the keys (`list(self.options)`),
an inconsistency the spec notes; only the keys are ever consulted. -/
inductive OptionsRepr where
  | dict (keys : List String)
  | list (keys : List String)
deriving DecidableEq

/-- The option tags held in `options`. -/
def OptionsRepr.keys : OptionsRepr → List String
  | .dict ks => ks
  | .list ks => ks

/-- A hash-observation record: object identity, state back-reference,
inputs and symbolic output (spec §3).  `copy(new_state)` is modelled from
the spec: fresh object, same data, back-reference to the new state. -/
structure ShaObs where
  aid : Nat
  stateId : Nat
  inputs : List BVExpr
  output : BVExpr
deriving DecidableEq

/-- src/SEtaac/state.py, SymbolicEVMState.  Mutable containers are `Tagged`
with their object identity; plugins (including the solver, which owns the
path constraints) live in `active_plugins`. -/
structure SEState where
  xid : Nat
  uuid : Nat
  codeLen : Nat
  pc : PCv
  trace : Tagged (List PCv)
  memory : Tagged LambdaMem
  options : Tagged OptionsRepr
  registers : Tagged (List (String × Val))
  ctx : Tagged (List (String × BVExpr))
  callstack : Tagged (List String)
  returndata : Tagged ReturnData
  instruction_count : Nat
  halt : Bool
  revert : Bool
  error : Option PyExc
  gas : BVExpr
  start_balance : BVExpr
  balance : BVExpr
  sha_observed : Tagged (List ShaObs)
  min_timestamp : Nat
  max_timestamp : Nat
  MAX_CALLDATA_SIZE : Nat
  calldata : Option (Tagged LambdaMem)
  calldatasize : Option BVExpr
  storage : Tagged LambdaMem
  active_plugins : Tagged (List (String × Plugin))
deriving DecidableEq

/-- Look up a plugin by name (`self.active_plugins[name]` / the attribute
installed by `register_plugin`). -/
def SEState.plugin? (st : SEState) (name : String) : Option Plugin :=
  assocLookup st.active_plugins.content name

/-- `state.constraints`, the solver plugin's current assertion list (every
state built by `__init__`, `reset` or `copy` carries the solver plugin). -/
def SEState.constraints (st : SEState) : List Constr :=
  match (st.plugin? "solver").map Plugin.pdata with
  | some (.solverData cs _) => cs
  | _ => []

/-- Helper: rewrite the solver plugin's data within the plugin table. -/
def updSolverEntry (f : List Constr → Bool → PluginData) (p : String × Plugin) :
    String × Plugin :=
  match p with
  | (n, ⟨a, sid, .solverData cs d⟩) =>
      if n = "solver" then (n, ⟨a, sid, f cs d⟩) else p
  | _ => p

/-- Append a constraint to the solver plugin's list (the effect of
`self.solver.add_path_constraints(c)` and of the handlers' direct
`succ.constraints.append(c)`). -/
def SEState.appendConstraint (st : SEState) (c : Constr) : SEState :=
  { st with active_plugins := { st.active_plugins with content :=
      (st.active_plugins.content.map (updSolverEntry (fun cs d => .solverData (cs ++ [c]) d))) } }

/-- src/SEtaac/state.py, add_constraint: an optional debugger hook (a no-op
semantically) and then `self.solver.add_path_constraints(constraint)`. -/
def SEState.add_constraint (st : SEState) (c : Constr) : SEState :=
  st.appendConstraint c

/-- `s.solver.dispose_context()`.  Modelled from the spec: the solver plugin
is not under src/; per spec §5 the native solver context is released, which
we record as the disposed flag. -/
def SEState.disposeSolver (st : SEState) : SEState :=
  { st with active_plugins := { st.active_plugins with content :=
      (st.active_plugins.content.map (updSolverEntry (fun cs _ => .solverData cs true))) } }

/-- Value of one hexadecimal digit. -/
def hexDigit? (c : Char) : Option Nat :=
  if '0' ≤ c ∧ c ≤ '9' then some (c.toNat - '0'.toNat)
  else if 'a' ≤ c ∧ c ≤ 'f' then some (c.toNat - 'a'.toNat + 10)
  else if 'A' ≤ c ∧ c ≤ 'F' then some (c.toNat - 'A'.toNat + 10)
  else none

/-- Python `int(s, 16)` on the bare hex strings the code feeds it; an empty
or non-hex string raises ValueError. -/
def parseHex (s : String) : Except PyExc Nat :=
  if s.data.isEmpty then .error (.valueError s)
  else s.data.foldlM (fun acc c =>
    match hexDigit? c with
    | some d => Except.ok (acc * 16 + d)
    | none => Except.error (.valueError s)) 0

/-- Python `s.replace("0x", "")` on the CALLDATA string: every leftmost,
non-overlapping occurrence of the two characters `0x` is removed. -/
def stripZeroX : List Char → List Char
  | '0' :: 'x' :: rest => stripZeroX rest
  | c :: rest => c :: stripZeroX rest
  | [] => []

/-- `[raw[i:i+2] for i in range(0, len(raw), 2)]`: split into two-character
chunks (a trailing odd character forms a one-character chunk). -/
def chunk2 : List Char → List String
  | [] => []
  | [c] => [String.mk [c]]
  | c1 :: c2 :: rest => String.mk [c1, c2] :: chunk2 rest

/-- `BVS(f'CALLDATA_BYTE_{i}', 8)` (note: no xid in the name). -/
def symCalldataByte (i : Nat) : BVExpr := .bvs s!"CALLDATA_BYTE_{i}" 8

/-- set_init_ctx lines 90-93: `for index in range(start, start+count):
self.calldata[BVV(index, 256)] = BVS(f'CALLDATA_BYTE_{index}', 8)`. -/
def writeSymRange (m : LambdaMem) (start count : Nat) : LambdaMem :=
  match count with
  | 0 => m
  | k + 1 => writeSymRange (m.write start (symCalldataByte start)) (start + 1) k

/-- set_init_ctx lines 105-112: `for index, cb in enumerate(calldata_bytes)`,
writing a symbolic byte for the `SS` token and `BVV(int(cb, 16), 8)`
otherwise. -/
def writeChunks (m : LambdaMem) (idx : Nat) : List String → Except PyExc LambdaMem
  | [] => .ok m
  | cb :: rest =>
    if cb = "SS" then writeChunks (m.write idx (symCalldataByte idx)) (idx + 1) rest
    else do
      let v ← parseHex cb
      writeChunks (m.write idx (.bvv v 8)) (idx + 1) rest

/-- The recognized keys of the initial context (spec §6). -/
structure InitCtx where
  CALLDATA : Option String
  CALLDATASIZE : Option Nat
  CALLER : Option String
  ORIGIN : Option String
  BALANCE : Option Nat
  ADDRESS : Option String
  NUMBER : Option Nat
  DIFFICULTY : Option Nat
  TIMESTAMP : Option Nat
  CALLVALUE : Option Nat
deriving DecidableEq

/-- An empty initial context (`init_ctx or dict()`). -/
def emptyCtx : InitCtx := ⟨none, none, none, none, none, none, none, none, none, none⟩

/-- src/SEtaac/state.py, set_init_ctx lines 72-118: CALLDATA parsing.  The
hex string is stripped of `0x`, chunked into bytes; `calldatasize` becomes a
fresh 256-bit symbol.  With CALLDATASIZE given, it is constrained equal to
that value, the memory gets default 0, positions past the provided bytes up
to CALLDATASIZE are made symbolic, and `MAX_CALLDATA_SIZE` becomes the
solver's model value for `calldatasize`, which the just-added equality pins
to CALLDATASIZE.  Without it, `calldatasize` is constrained below
`MAX_CALLDATA_SIZE + 1` and at least the number of provided bytes.  In both
cases the provided bytes are then written (`SS` marks a symbolic byte).
With no CALLDATA at all, calldata is fully symbolic and only the upper
bound is asserted.  `aidcd` is the identity of the LambdaMemory allocated. -/
def initCalldata (st0 : SEState) (cdOpt : Option String) (szOpt : Option Nat)
    (aidcd : Nat) : Except PyExc SEState :=
  match cdOpt with
  | some cdstr =>
      let chunks := chunk2 (stripZeroX cdstr.data)
      let cdsz : BVExpr := .bvs s!"CALLDATASIZE_{st0.xid}" 256
      let st := { st0 with calldatasize := some cdsz }
      match szOpt with
      | some n =>
          let st := st.add_constraint (.eq cdsz (.bvv n 256))
          let mem0 : LambdaMem := ⟨s!"CALLDATA_{st.xid}", some (.bvv 0 8), [], st.uuid, false⟩
          if chunks.length ≤ n then do
            let mem1 := if chunks.length < n then writeSymRange mem0 chunks.length (n - chunks.length) else mem0
            let mem2 ← writeChunks mem1 0 chunks
            .ok { st with calldata := some ⟨aidcd, mem2⟩, MAX_CALLDATA_SIZE := n }
          else .error (.assertionError "CALLDATASIZE is smaller than len(CALLDATA)")
      | none => do
          let mem0 : LambdaMem := ⟨s!"CALLDATA_{st.xid}", none, [], st.uuid, false⟩
          let st := st.add_constraint (.ult cdsz (.bvv (st.MAX_CALLDATA_SIZE + 1) 256))
          let st := st.add_constraint (.uge cdsz (.bvv chunks.length 256))
          let mem2 ← writeChunks mem0 0 chunks
          .ok { st with calldata := some ⟨aidcd, mem2⟩ }
  | none =>
      let cdsz : BVExpr := .bvs s!"CALLDATASIZE_{st0.xid}" 256
      let mem0 : LambdaMem := ⟨s!"CALLDATA_{st0.xid}", none, [], st0.uuid, false⟩
      let st := { st0 with calldata := some ⟨aidcd, mem0⟩, calldatasize := some cdsz }
      .ok (st.add_constraint (.ult cdsz (.bvv (st.MAX_CALLDATA_SIZE + 1) 256)))

/-- `self.ctx[k] = v`. -/
def SEState.setCtx (st : SEState) (k : String) (v : BVExpr) : SEState :=
  { st with ctx := { st.ctx with content := (assocSet st.ctx.content k v) } }

/-- set_init_ctx lines 120-126 and 132-134: a hex-string context key becomes
`BVV(int(s, 16), 256)`. -/
def ctxHexStep (key : String) (o : Option String) (st : SEState) : Except PyExc SEState :=
  match o with
  | some s => do
      let v ← parseHex s
      .ok (st.setCtx key (.bvv v 256))
  | none => .ok st

/-- set_init_ctx lines 136-150: an integer context key becomes `BVV(n, 256)`. -/
def ctxNumStep (key : String) (o : Option Nat) (st : SEState) : SEState :=
  match o with
  | some n => st.setCtx key (.bvv n 256)
  | none => st

/-- set_init_ctx lines 128-130: BALANCE pre-constrains `start_balance`. -/
def balanceStep (o : Option Nat) (st : SEState) : SEState :=
  match o with
  | some n => st.add_constraint (.eq st.start_balance (.bvv n 256))
  | none => st

/-- src/SEtaac/state.py, set_init_ctx: CALLDATA handling followed by the
individual context keys, in source order. -/
def set_init_ctx (st0 : SEState) (ictx : InitCtx) (aidcd : Nat) : Except PyExc SEState := do
  let st1 ← initCalldata st0 ictx.CALLDATA ictx.CALLDATASIZE aidcd
  let st2 ← ctxHexStep "CALLER" ictx.CALLER st1
  let st3 ← ctxHexStep "ORIGIN" ictx.ORIGIN st2
  let st4 := balanceStep ictx.BALANCE st3
  let st5 ← ctxHexStep "ADDRESS" ictx.ADDRESS st4
  let st6 := ctxNumStep "NUMBER" ictx.NUMBER st5
  let st7 := ctxNumStep "DIFFICULTY" ictx.DIFFICULTY st6
  let st8 := ctxNumStep "TIMESTAMP" ictx.TIMESTAMP st7
  .ok (ctxNumStep "CALLVALUE" ictx.CALLVALUE st8)

/-- Global option values consumed from the options module. -/
structure GOpts where
  STATE_INSPECT : Bool
  MAX_CALLDATA_SIZE : Nat
  LAZY_SOLVES : Bool
deriving DecidableEq

/-- Python `a or b` where `a` is an optional integer: both `None` and `0`
are falsy. -/
def pyOrNat (a : Option Nat) (b : Nat) : Nat :=
  match a with
  | none => b
  | some 0 => b
  | some n => n

/-- _register_default_plugins: solver, globals, and inspect when the
STATE_INSPECT option is set; `register_plugin` installs the back-reference
to the owning state. -/
def defaultPlugins (g : GOpts) (uuid aidBase : Nat) : List (String × Plugin) :=
  [("solver", ⟨aidBase + 1, uuid, .solverData [] false⟩),
   ("globals", ⟨aidBase + 2, uuid, .globalsData []⟩)] ++
  (if g.STATE_INSPECT then [("inspect", ⟨aidBase + 3, uuid, .inspectData [] []⟩)] else [])

/-- src/SEtaac/state.py, SymbolicEVMState.__init__, non-partial path.
`uuid` is the value drawn from the uuid generator and `aidBase` the block of
fresh object identities for the containers allocated here.  Note the order
the source fixes: `balance` is computed while `ctx` is still empty (so the
CALLVALUE term is the fresh 256-bit symbol), `CODESIZE-ADDRESS` is added
next, and only then is `set_init_ctx` applied. -/
def initStateCore (xid : Nat) (p : Project) (opts : Option (List String))
    (max_calldatasize : Option Nat) (partial_concrete_storage : Bool)
    (g : GOpts) (nowTs : Nat) (uuid aidBase : Nat) : SEState :=
  let ctx0 : List (String × BVExpr) := []
  let storageMem : LambdaMem :=
    if partial_concrete_storage then ⟨s!"PCONCR_STORAGE_{xid}", none, [], uuid, true⟩
    else ⟨s!"STORAGE_{xid}", none, [], uuid, false⟩
  { xid := xid
    uuid := uuid
    codeLen := p.codeLen
    pc := .null
    trace := ⟨aidBase + 4, []⟩
    memory := ⟨aidBase + 5, ⟨s!"MEMORY_{xid}", some (.bvv 0 8), [], uuid, false⟩⟩
    options := ⟨aidBase + 6, .dict (opts.getD [])⟩
    registers := ⟨aidBase + 7, []⟩
    ctx := ⟨aidBase + 8, assocSet ctx0 "CODESIZE-ADDRESS" (.bvv p.codeLen 256)⟩
    callstack := ⟨aidBase + 9, []⟩
    returndata := ⟨aidBase + 10, ⟨none, none⟩⟩
    instruction_count := 0
    halt := false
    revert := false
    error := none
    gas := .bvs s!"GAS_{xid}" 256
    start_balance := .bvs s!"BALANCE_{xid}" 256
    balance := .add (.bvs s!"BALANCE_{xid}" 256) (ctx_or_symbolic "CALLVALUE" ctx0 xid)
    sha_observed := ⟨aidBase + 11, []⟩
    min_timestamp := 1640995200
    max_timestamp := nowTs
    MAX_CALLDATA_SIZE := pyOrNat max_calldatasize g.MAX_CALLDATA_SIZE
    calldata := none
    calldatasize := none
    storage := ⟨aidBase + 13, storageMem⟩
    active_plugins := ⟨aidBase + 0, defaultPlugins g uuid aidBase⟩ }

/-- src/SEtaac/state.py, SymbolicEVMState.__init__, non-partial path: the
field initialization above followed by `set_init_ctx` (the storage creation
at lines 63-68 touches no field set_init_ctx reads). -/
def mkState (xid : Nat) (p : Project) (ictx : InitCtx) (opts : Option (List String))
    (max_calldatasize : Option Nat) (partial_concrete_storage : Bool)
    (g : GOpts) (nowTs : Nat) (uuid aidBase : Nat) : Except PyExc SEState :=
  set_init_ctx (initStateCore xid p opts max_calldatasize partial_concrete_storage g nowTs
    uuid aidBase) ictx (aidBase + 12)

/-- src/SEtaac/state.py, reset: re-registers the default plugins and
reinitializes the per-transaction fields in place.  `options`, `storage`,
the timestamp bounds and `MAX_CALLDATA_SIZE` are left untouched; `calldata`
and `calldatasize` become None; `balance` is recomputed against the emptied
`ctx`, so its CALLVALUE term is again the fresh symbol for the new xid. -/
def resetState (s : SEState) (xid : Nat) (g : GOpts) (uuid aidBase : Nat) : SEState :=
  { s with
    xid := xid
    uuid := uuid
    active_plugins := ⟨aidBase + 0, defaultPlugins g uuid aidBase⟩
    pc := .null
    trace := ⟨aidBase + 4, []⟩
    memory := ⟨aidBase + 5, ⟨s!"MEMORY_{xid}", some (.bvv 0 8), [], uuid, false⟩⟩
    registers := ⟨aidBase + 7, []⟩
    ctx := ⟨aidBase + 8, assocSet [] "CODESIZE-ADDRESS" (.bvv s.codeLen 256)⟩
    callstack := ⟨aidBase + 9, []⟩
    returndata := ⟨aidBase + 10, ⟨none, none⟩⟩
    instruction_count := 0
    halt := false
    revert := false
    error := none
    gas := .bvs s!"GAS_{xid}" 256
    start_balance := .bvs s!"BALANCE_{xid}" 256
    balance := .add (.bvs s!"BALANCE_{xid}" 256) (ctx_or_symbolic "CALLVALUE" [] xid)
    sha_observed := ⟨aidBase + 11, []⟩
    calldata := none
    calldatasize := none }

/-- `[sha.copy(new_state=new_state) for sha in self.sha_observed]`: each
observation record is cloned into a fresh object (consecutive identities
from `base`) whose back-reference is the new state's uuid. -/
def cloneShas (u base : Nat) : List ShaObs → List ShaObs
  | [] => []
  | sha :: rest => ⟨base, u, sha.inputs, sha.output⟩ :: cloneShas u (base + 1) rest

/-- `for p_name, p in self.active_plugins.items():
new_state.register_plugin(p_name, p.copy())`: each plugin is cloned into a
fresh object with the same data, and `register_plugin` → `set_state` binds
it to the new state. -/
def clonePlugins (u base : Nat) : List (String × Plugin) → List (String × Plugin)
  | [] => []
  | (n, pl) :: rest => (n, ⟨base, u, pl.pdata⟩) :: clonePlugins u (base + 1) rest

/-- src/SEtaac/state.py, copy (lines 240-274).  The partial `__init__` draws
a fresh uuid `u`; `base` is the block of fresh object identities.  The plain
containers are copied by value into fresh objects; memory, storage,
calldata, each sha observation and each plugin are cloned with their
back-reference re-bound to the new state (`new_state=new_state`,
`sha.copy(new_state=...)`, `register_plugin` → `set_state`); `options`
becomes `list(self.options)`.  A None `calldata` is kept as None here (a
reset, never-reinitialized state would make the source raise instead; no
copy in this development is taken of such a state). -/
def copyState (s : SEState) (u base : Nat) : SEState :=
  let shaK := s.sha_observed.content.length
  { xid := s.xid
    uuid := u
    codeLen := s.codeLen
    pc := s.pc
    trace := ⟨base + 0, s.trace.content⟩
    memory := ⟨base + 1, { s.memory.content with stateId := u }⟩
    storage := ⟨base + 2, { s.storage.content with stateId := u }⟩
    registers := ⟨base + 3, s.registers.content⟩
    ctx := ⟨base + 4, s.ctx.content⟩
    options := ⟨base + 5, .list s.options.content.keys⟩
    callstack := ⟨base + 6, s.callstack.content⟩
    returndata := ⟨base + 7, s.returndata.content⟩
    instruction_count := s.instruction_count
    halt := s.halt
    revert := s.revert
    error := s.error
    gas := s.gas
    start_balance := s.start_balance
    balance := s.balance
    sha_observed := ⟨base + 8, cloneShas u (base + 9) s.sha_observed.content⟩
    min_timestamp := s.min_timestamp
    max_timestamp := s.max_timestamp
    MAX_CALLDATA_SIZE := s.MAX_CALLDATA_SIZE
    calldata := s.calldata.map (fun cd => ⟨base + 9 + shaK, { cd.content with stateId := u }⟩)
    calldatasize := s.calldatasize
    active_plugins := ⟨base + 10 + shaK,
      clonePlugins u (base + 11 + shaK) s.active_plugins.content⟩ }

/-- The fresh-identity supply: the next uuid from the uuid generator and the
next unused object identity. -/
structure Gen where
  uuid : Nat
  aid : Nat
deriving DecidableEq

/-- Number of fresh object identities one `copy()` consumes. -/
def copyAidSpan (s : SEState) : Nat :=
  11 + s.sha_observed.content.length + s.active_plugins.content.length

/-- `state.copy()` with the fresh-identity supply threaded. -/
def copyG (s : SEState) (g : Gen) : SEState × Gen :=
  (copyState s g.uuid g.aid, ⟨g.uuid + 1, g.aid + copyAidSpan s⟩)

/-- `state.curr_stmt`: `self.project.factory.statement(self._pc)`; a pc that
is not a statement id fails the factory lookup. -/
def currStmt (p : Project) (st : SEState) : Except PyExc Statement :=
  match st.pc with
  | .sid s => p.statement? s
  | .null => .error (.keyError "None")
  | .raw _ => .error (.keyError "raw-pc")

/-- src/SEtaac/state.py, get_fallthrough_pc (lines 182-198): zero CFG
successors raise VMNoSuccessors, one successor yields its first statement,
more than one yields the first statement of the `fallthrough_edge` block
(a block without that attribute fails the attribute lookup). -/
def get_fallthrough_pc (p : Project) (st : SEState) : Except PyExc String := do
  let curr ← currStmt p st
  let curr_bb ← p.block? curr.block_id
  match curr_bb.succ with
  | [] => .error .vmNoSuccessors
  | [b1] => do
      let blk ← p.block? b1
      let fi ← blk.first_ins?
      .ok fi.id
  | _ => do
      match curr_bb.fallthrough_edge with
      | some fb => do
          let fblk ← p.block? fb
          let fi ← fblk.first_ins?
          .ok fi.id
      | none => .error (.attributeError "fallthrough_edge")

/-- The pc computation shared by `set_next_pc` (src/SEtaac/state.py lines
168-176) and the fallthrough used by the JUMPI handler: the statement after
the current one in its block when one remains, otherwise the block's
fallthrough per `get_fallthrough_pc`.  `statements.index(curr_stmt)` raises
ValueError when the statement is not in its block's list. -/
def next_pc_core (p : Project) (st : SEState) : Except PyExc String := do
  let curr ← currStmt p st
  let curr_bb ← p.block? curr.block_id
  match curr_bb.statements.findIdx? (· = curr) with
  | none => .error (.valueError "x not in list")
  | some idx =>
      match (curr_bb.statements.drop (idx + 1)).head? with
      | some nxt => .ok nxt.id
      | none => get_fallthrough_pc p st

/-- src/SEtaac/state.py, set_next_pc (lines 168-181): apply the computation
above; VMNoSuccessors and VMUnexpectedSuccessors are caught and halt the
state, every other exception escapes. -/
def set_next_pc (p : Project) (st : SEState) : Except PyExc SEState :=
  match next_pc_core p st with
  | .ok pc => .ok { st with pc := .sid pc }
  | .error .vmNoSuccessors => .ok { st with halt := true }
  | .error .vmUnexpectedSuccessors => .ok { st with halt := true }
  | .error e => .error e

/-- Modelled from the spec: `succ.next_statement()` is called by the JUMPI
handler (src/SEtaac/TAC_ops/flow_ops.py lines 50, 68, 82) but no
`next_statement` method exists in src/SEtaac/state.py.  Per the spec (§4.2,
§4.4) the fallthrough pc is the statement after the current one within its
block when one remains, and otherwise the block fallthrough computed by
`get_fallthrough_pc` — the same computation `set_next_pc` performs, here
returning the pc instead of assigning it. -/
def next_statement (p : Project) (st : SEState) : Except PyExc String :=
  next_pc_core p st

/-- `succ.registers[name]`: a missing register raises KeyError. -/
def regLookup (st : SEState) (name : String) : Except PyExc Val :=
  match assocLookup st.registers.content name with
  | some v => .ok v
  | none => .error (.keyError name)

/-- src/SEtaac/TAC_ops/flow_ops.py, TAC_Jump.handle (lines 14-22): clone,
require a concrete destination, set `pc` to the raw register value. -/
def TAC_Jump_handle (destination : String) (st : SEState) (g : Gen) :
    Except PyExc (List SEState × Gen) := do
  let (succ, g1) := copyG st g
  let dest ← regLookup succ destination
  if concrete dest = false then .error (.symbolicError "Symbolic jump target")
  else .ok ([{ succ with pc := .raw dest }], g1)

/-- src/SEtaac/TAC_ops/flow_ops.py, TAC_Jumpi.handler (lines 36-88).  The
state is cloned; `dest` and `cond` are read from the clone's registers.  A
concrete condition takes the jump exactly when it is the Python literal
`True` (`cond is True`); every other concrete value falls through.  For a
symbolic condition a fresh solver is seeded with the clone's constraints and
`is_true(cond == 1)` / `is_true(cond == 0)` are probed — entailment checks,
per src/SEtaac/utils/z3.py.  Both: fork into a second clone (pc = dest, no
concreteness check, `cond == 1` appended) and the original clone
(pc = fallthrough, `cond == 0` appended).  Only true: require `dest`
concrete, jump with `cond == 1`.  Only false: fall through with
`cond == 0`.  Neither: no successors. -/
def TAC_Jumpi_handler (check : SolverCheck) (p : Project)
    (condition destination : String) (st : SEState) (g : Gen) :
    Except PyExc (List SEState × Gen) := do
  let (succ, g1) := copyG st g
  let dest ← regLookup succ destination
  let cond ← regLookup succ condition
  match cond with
  | .pyBool true =>
      if concrete dest = false then .error (.symbolicError "Symbolic jump target")
      else .ok ([{ succ with pc := .raw dest }], g1)
  | .pyBool false => do
      let ft ← next_statement p succ
      .ok ([{ succ with pc := .sid ft }], g1)
  | .num _ => do
      let ft ← next_statement p succ
      .ok ([{ succ with pc := .sid ft }], g1)
  | .sym e =>
      let cs := succ.constraints
      let sat_true := is_true check (.eq e (.bvv 1 e.width)) cs
      let sat_false := is_true check (.eq e (.bvv 0 e.width)) cs
      if sat_true && sat_false then do
        let (succ_true0, g2) := copyG succ g1
        let succ_true := SEState.appendConstraint { succ_true0 with pc := .raw dest }
          (.eq e (.bvv 1 e.width))
        let ft ← next_statement p succ
        let succ_false := SEState.appendConstraint { succ with pc := .sid ft }
          (.eq e (.bvv 0 e.width))
        .ok ([succ_true, succ_false], g2)
      else if sat_true then
        if concrete dest = false then .error (.symbolicError "Symbolic jump target")
        else .ok ([SEState.appendConstraint { succ with pc := .raw dest }
          (.eq e (.bvv 1 e.width))], g1)
      else if sat_false then do
        let ft ← next_statement p succ
        .ok ([SEState.appendConstraint { succ with pc := .sid ft }
          (.eq e (.bvv 0 e.width))], g1)
      else .ok ([], g1)

/-- The type of an opcode `handle` implementation: `handle(state) ->
list<state>` (spec §6), with the fresh-identity supply threaded. -/
def HandlerFn : Type := SEState → Gen → Except PyExc (List SEState × Gen)

/-- Python attribute lookup of `handle` on a statement.  TAC_Jump defines
`handle` (src/SEtaac/TAC_ops/flow_ops.py line 14); TAC_Jumpi defines its
step function under the name `handler` (line 36), so it has no `handle`
attribute and the lookup fails.  The handlers of the remaining opcodes are
external collaborators (spec §1), supplied through `handlers`. -/
def getattrHandle (handlers : String → Option HandlerFn) (stmt : Statement) :
    Option HandlerFn :=
  match stmt.op with
  | .jump d => some (TAC_Jump_handle d)
  | .jumpi _ _ => none
  | .other n => handlers n

/-- src/greed/sim_manager.py: the named stashes. -/
structure Stashes where
  active : List SEState
  deadended : List SEState
  found : List SEState
  pruned : List SEState
  unsat : List SEState
  errored : List SEState
deriving DecidableEq

/-- `self.stashes[name]` (unknown keys do not occur). -/
def Stashes.get (ss : Stashes) : String → List SEState
  | "active" => ss.active
  | "deadended" => ss.deadended
  | "found" => ss.found
  | "pruned" => ss.pruned
  | "unsat" => ss.unsat
  | "errored" => ss.errored
  | _ => []

/-- `self.stashes[name] = l`. -/
def Stashes.set (ss : Stashes) (name : String) (l : List SEState) : Stashes :=
  match name with
  | "active" => { ss with active := l }
  | "deadended" => { ss with deadended := l }
  | "found" => { ss with found := l }
  | "pruned" => { ss with pruned := l }
  | "unsat" => { ss with unsat := l }
  | "errored" => { ss with errored := l }
  | _ => ss

/-- src/greed/sim_manager.py, move (lines 101-112): transfer every state
matching the filter from one stash to the other, preserving order. -/
def Stashes.move (ss : Stashes) (src dst : String) (filt : SEState → Bool) : Stashes :=
  let source := ss.get src
  let moved := source.filter filt
  let ss1 := ss.set src (source.filter (fun s => !filt s))
  ss1.set dst (ss1.get dst ++ moved)

/-- An exploration technique's hooks (spec §4.6).  The manager argument the
Python hooks also receive is not modelled; the theorems below run with no
techniques installed. -/
structure Technique where
  check_stashes : Stashes → Stashes
  check_state : SEState → SEState
  check_successors : List SEState → List SEState
  is_complete : Bool

/-- The simulation manager's own state. -/
structure SMgr where
  stashes : Stashes
  insns_count : Nat
  errors : List String
deriving DecidableEq

/-- The ambient context of a step: external opcode handlers, the black-box
solver check, the project, the installed techniques, the global options and
the effect of an inspect breakpoint callback registered under a key
(arbitrary user code; no state in the theorems below carries breakpoints). -/
structure StepCtx where
  handlers : String → Option HandlerFn
  check : SolverCheck
  proj : Project
  techniques : List Technique
  g : GOpts
  bpEffect : String → SEState → SEState

/-- src/greed/sim_manager.py lines 150-156: when the state has the inspect
plugin, fire the breakpoint registered for the current pc, then the one
registered for the current statement's opcode name. -/
def triggerInspect (ctx : StepCtx) (curr : Statement) (st : SEState) : SEState :=
  match st.plugin? "inspect" with
  | some ⟨_, _, .inspectData ids names⟩ =>
      let st1 := match st.pc with
        | .sid s => if ids.contains s then ctx.bpEffect s st else st
        | _ => st
      if names.contains curr.op.internalName then
        ctx.bpEffect curr.op.internalName st1
      else st1
  | _ => st

/-- `s.solver.is_sat()`.  Modelled from the spec: the solver plugin is not
under src/; per the solver interface (spec §6) it reports whether the
current assertion set checks satisfiable. -/
def solverIsSat (check : SolverCheck) (st : SEState) : Bool :=
  check st.constraints = .sat

/-- src/greed/sim_manager.py, single_step_state (lines 143-186): the current
statement is fetched (the debug log at line 145 evaluates it outside the
try, so a failing lookup escapes), breakpoints fire, techniques transform
the state about to be stepped into `state_to_step` — which the source then
ignores: line 167 invokes `state.curr_stmt.handle(state)` on the original
state — and the `handle` attribute is resolved and invoked inside a
catch-all: on any exception the state itself receives the error, is halted,
and becomes the sole successor.  Techniques then transform the successors. -/
def single_step_state (ctx : StepCtx) (st : SEState) (g : Gen) :
    Except PyExc (List SEState × Gen) := do
  let curr ← currStmt ctx.proj st
  let st := triggerInspect ctx curr st
  let _state_to_step := ctx.techniques.foldl (fun s t => t.check_state s) st
  let res : Except PyExc (List SEState × Gen) :=
    match getattrHandle ctx.handlers curr with
    | none => .error (.attributeError "handle")
    | some h => h st g
  match res with
  | .ok (succs, g1) =>
      .ok (ctx.techniques.foldl (fun ss t => t.check_successors ss) succs, g1)
  | .error e =>
      let stErr := { st with error := some e, halt := true }
      .ok (ctx.techniques.foldl (fun ss t => t.check_successors ss) [stErr], g)

/-- src/greed/sim_manager.py, step (lines 114-141): techniques rewrite the
stashes, every active state is single-stepped and the successors become the
new active stash, the instruction counter is bumped, and the re-binning
moves run in source order — found, errored, deadended, pruned, then (unless
LAZY_SOLVES) the unsat sweep of active, and the unsat sweep of found.
Finally the solver contexts of every state now in pruned, unsat or errored
are disposed. -/
def step (ctx : StepCtx) (find prune : SEState → Bool) (mgr : SMgr) (g : Gen) :
    Except PyExc (SMgr × Gen) := do
  let stashes0 := ctx.techniques.foldl (fun ss t => t.check_stashes ss) mgr.stashes
  let stepped ← stashes0.active.foldlM
    (fun (acc : List SEState × Gen) s => do
      let r ← single_step_state ctx s acc.2
      pure (acc.1 ++ r.1, r.2))
    (([], g) : List SEState × Gen)
  let s1 := { stashes0 with active := stepped.1 }
  let s2 := s1.move "active" "found" find
  let s3 := s2.move "active" "errored" (fun s => s.error.isSome)
  let s4 := s3.move "active" "deadended" (fun s => s.halt)
  let s5 := s4.move "active" "pruned" prune
  let s6 :=
    if !ctx.g.LAZY_SOLVES then s5.move "active" "unsat" (fun s => !solverIsSat ctx.check s)
    else s5
  let s7 := s6.move "found" "unsat" (fun s => !solverIsSat ctx.check s)
  let s8 := { s7 with pruned := s7.pruned.map SEState.disposeSolver,
                      unsat := s7.unsat.map SEState.disposeSolver,
                      errored := s7.errored.map SEState.disposeSolver }
  .ok ({ mgr with stashes := s8, insns_count := mgr.insns_count + 1 }, stepped.2)

/-! ### Basic lemmas about the embedding -/

theorem assocLookup_cons {α : Type} (n : String) (v : α) (l : List (String × α)) (k : String) :
    assocLookup ((n, v) :: l) k = if n = k then some v else assocLookup l k := by
  by_cases h : n = k
  · unfold assocLookup
    rw [List.find?_cons_of_pos]
    · simp [h]
    · simp [h]
  · unfold assocLookup
    rw [List.find?_cons_of_neg]
    · simp [h]
    · simp [h]

theorem updSolverEntry_fst (f : List Constr → Bool → PluginData) (p : String × Plugin) :
    (updSolverEntry f p).1 = p.1 := by
  obtain ⟨n, a, sid, pd⟩ := p
  cases pd <;> simp only [updSolverEntry] <;> split <;> rfl

/-- The effect, on an individual plugin, that mapping `updSolverEntry` over
the table has on the entry a "solver" lookup returns. -/
def updSolver1 (f : List Constr → Bool → PluginData) (pl : Plugin) : Plugin :=
  match pl with
  | ⟨a, sid, .solverData cs d⟩ => ⟨a, sid, f cs d⟩
  | pl => pl

theorem assocLookup_map_updSolver (f : List Constr → Bool → PluginData)
    (l : List (String × Plugin)) :
    assocLookup (l.map (updSolverEntry f)) "solver"
      = (assocLookup l "solver").map (updSolver1 f) := by
  induction l with
  | nil => rfl
  | cons hd tl ih =>
      obtain ⟨n, a, sid, pd⟩ := hd
      by_cases hn : n = "solver"
      · subst hn
        cases pd <;>
          simp [updSolverEntry, updSolver1, assocLookup_cons, List.map_cons]
      · cases pd <;>
          simp [updSolverEntry, updSolver1, assocLookup_cons, List.map_cons, hn, ih]

theorem assocLookup_clonePlugins_pdata (u : Nat) (l : List (String × Plugin)) (k : String) :
    ∀ base, (assocLookup (clonePlugins u base l) k).map Plugin.pdata
      = (assocLookup l k).map Plugin.pdata := by
  induction l with
  | nil => intro _; rfl
  | cons hd tl ih =>
      intro base
      obtain ⟨n, pl⟩ := hd
      simp only [clonePlugins, assocLookup_cons]
      by_cases h : n = k
      · simp [h]
      · simp [h, ih]

theorem registers_copyState (s : SEState) (u base : Nat) :
    (copyState s u base).registers.content = s.registers.content := rfl

theorem pc_copyState (s : SEState) (u base : Nat) :
    (copyState s u base).pc = s.pc := rfl

theorem constraints_copyState (s : SEState) (u base : Nat) :
    (copyState s u base).constraints = s.constraints := by
  unfold SEState.constraints SEState.plugin?
  rw [show (copyState s u base).active_plugins.content
        = clonePlugins u (base + 11 + s.sha_observed.content.length)
            s.active_plugins.content from rfl]
  rw [assocLookup_clonePlugins_pdata]

theorem constraints_of_plugin (st : SEState) (a sid : Nat) (cs : List Constr) (d : Bool)
    (h : st.plugin? "solver" = some ⟨a, sid, .solverData cs d⟩) :
    st.constraints = cs := by
  unfold SEState.constraints
  rw [h]
  rfl

theorem constraints_appendConstraint (st : SEState) (c : Constr) (a sid : Nat)
    (cs : List Constr) (d : Bool)
    (h : st.plugin? "solver" = some ⟨a, sid, .solverData cs d⟩) :
    (st.appendConstraint c).constraints = cs ++ [c] := by
  unfold SEState.constraints SEState.plugin?
  rw [show (st.appendConstraint c).active_plugins.content
        = st.active_plugins.content.map (updSolverEntry (fun cs d => .solverData (cs ++ [c]) d))
        from rfl]
  rw [assocLookup_map_updSolver]
  unfold SEState.plugin? at h
  rw [h]
  rfl

theorem currStmt_congr (p : Project) {st st' : SEState} (h : st.pc = st'.pc) :
    currStmt p st = currStmt p st' := by
  unfold currStmt
  rw [h]

theorem get_fallthrough_pc_congr (p : Project) {st st' : SEState} (h : st.pc = st'.pc) :
    get_fallthrough_pc p st = get_fallthrough_pc p st' := by
  unfold get_fallthrough_pc
  rw [currStmt_congr p h]

theorem next_pc_core_congr (p : Project) {st st' : SEState} (h : st.pc = st'.pc) :
    next_pc_core p st = next_pc_core p st' := by
  unfold next_pc_core
  rw [currStmt_congr p h, get_fallthrough_pc_congr p h]

theorem next_statement_congr (p : Project) {st st' : SEState} (h : st.pc = st'.pc) :
    next_statement p st = next_statement p st' :=
  next_pc_core_congr p h

/-- With `w ≥ 1`, a model of `e == 0` is a model of `e != 1`. -/
theorem sat_ne_one_of_sat_eq_zero (cs : List Constr) (e : BVExpr) (hw : 0 < e.width)
    (h : Sat (cs ++ [.eq e (.bvv 0 e.width)])) :
    Sat (cs ++ [.ne e (.bvv 1 e.width)]) := by
  obtain ⟨env, henv⟩ := h
  refine ⟨env, ?_⟩
  intro c hc
  rcases List.mem_append.mp hc with hmem | hmem
  · exact henv c (List.mem_append.mpr (Or.inl hmem))
  · have h0 := henv (.eq e (.bvv 0 e.width)) (List.mem_append.mpr (Or.inr (by simp)))
    simp only [List.mem_singleton] at hmem
    subst hmem
    simp only [Constr.holds, BVExpr.eval] at h0 ⊢
    have h2 : (2 : Nat) ^ e.width ≥ 2 := by
      calc (2 : Nat) ^ e.width ≥ 2 ^ 1 := Nat.pow_le_pow_right (by norm_num) hw
      _ = 2 := by norm_num
    have h1 : 1 % 2 ^ e.width = 1 := Nat.mod_eq_of_lt (by omega)
    have h0' : 0 % 2 ^ e.width = 0 := Nat.zero_mod _
    rw [h1]
    rw [h0', ] at h0
    omega

/-- With `w ≥ 1`, a model of `e == 1` is a model of `e != 0`. -/
theorem sat_ne_zero_of_sat_eq_one (cs : List Constr) (e : BVExpr) (hw : 0 < e.width)
    (h : Sat (cs ++ [.eq e (.bvv 1 e.width)])) :
    Sat (cs ++ [.ne e (.bvv 0 e.width)]) := by
  obtain ⟨env, henv⟩ := h
  refine ⟨env, ?_⟩
  intro c hc
  rcases List.mem_append.mp hc with hmem | hmem
  · exact henv c (List.mem_append.mpr (Or.inl hmem))
  · have h0 := henv (.eq e (.bvv 1 e.width)) (List.mem_append.mpr (Or.inr (by simp)))
    simp only [List.mem_singleton] at hmem
    subst hmem
    simp only [Constr.holds, BVExpr.eval] at h0 ⊢
    have h2 : (2 : Nat) ^ e.width ≥ 2 := by
      calc (2 : Nat) ^ e.width ≥ 2 ^ 1 := Nat.pow_le_pow_right (by norm_num) hw
      _ = 2 := by norm_num
    have h1 : 1 % 2 ^ e.width = 1 := Nat.mod_eq_of_lt (by omega)
    rw [h1] at h0
    rw [Nat.zero_mod]
    omega

/-! ### A small concrete CFG and states, used by the witnesses -/

/-- Block A ends in a JUMPI on registers `condreg`/`destreg`; B is the jump
target, C the designated fallthrough. -/
def stJumpi : Statement := ⟨"A0", "A", .jumpi "condreg" "destreg"⟩

def stB0 : Statement := ⟨"B0", "B", .other "STOP"⟩

def stC0 : Statement := ⟨"C0", "C", .other "STOP"⟩

def blkA : Block := ⟨"A", [stJumpi], ["B", "C"], some "C"⟩

def blkB : Block := ⟨"B", [stB0], [], none⟩

def blkC : Block := ⟨"C", [stC0], [], none⟩

def sampleProject : Project :=
  ⟨[("A", blkA), ("B", blkB), ("C", blkC)],
   [("A0", stJumpi), ("B0", stB0), ("C0", stC0)], 0⟩

/-- A concrete state sitting at the JUMPI of `sampleProject`, with an empty
path-constraint store; the register file is set per witness below. -/
def wState : SEState :=
  { xid := 1
    uuid := 100
    codeLen := 0
    pc := .sid "A0"
    trace := ⟨0, []⟩
    memory := ⟨1, ⟨"MEMORY_1", some (.bvv 0 8), [], 100, false⟩⟩
    options := ⟨2, .dict []⟩
    registers := ⟨3, [("condreg", Val.sym (.bvs "X_1" 256)), ("destreg", Val.num 11)]⟩
    ctx := ⟨4, [("CODESIZE-ADDRESS", .bvv 0 256)]⟩
    callstack := ⟨5, []⟩
    returndata := ⟨6, ⟨none, none⟩⟩
    instruction_count := 0
    halt := false
    revert := false
    error := none
    gas := .bvs "GAS_1" 256
    start_balance := .bvs "BALANCE_1" 256
    balance := .add (.bvs "BALANCE_1" 256) (.bvs "CALLVALUE_1" 256)
    sha_observed := ⟨7, []⟩
    min_timestamp := 1640995200
    max_timestamp := 1700000000
    MAX_CALLDATA_SIZE := 256
    calldata := some ⟨8, ⟨"CALLDATA_1", none, [], 100, false⟩⟩
    calldatasize := some (.bvs "CALLDATASIZE_1" 256)
    storage := ⟨9, ⟨"STORAGE_1", none, [], 100, false⟩⟩
    active_plugins := ⟨10, [("solver", ⟨50, 100, .solverData [] false⟩),
                            ("globals", ⟨51, 100, .globalsData []⟩)]⟩ }

/-- `wState` with the path constraint `X != 0` already asserted. -/
def wStateNeZero : SEState :=
  { wState with active_plugins := ⟨10,
      [("solver", ⟨50, 100, .solverData [.ne (.bvs "X_1" 256) (.bvv 0 256)] false⟩),
       ("globals", ⟨51, 100, .globalsData []⟩)]⟩ }

/-- `wState` with a concrete integer 1 condition. -/
def wStateNumOne : SEState :=
  { wState with registers := ⟨3, [("condreg", Val.num 1), ("destreg", Val.num 11)]⟩ }

/-- `wState` with a symbolic destination and contradictory path constraints
(`X == 0` and `X == 1`), the situation in which the source's fork branch
fires. -/
def wStateFork : SEState :=
  { wState with
    registers := ⟨3, [("condreg", Val.sym (.bvs "X_1" 256)),
                      ("destreg", Val.sym (.bvs "Y_1" 256))]⟩
    active_plugins := ⟨10,
      [("solver", ⟨50, 100, .solverData
          [.eq (.bvs "X_1" 256) (.bvv 0 256), .eq (.bvs "X_1" 256) (.bvv 1 256)] false⟩),
       ("globals", ⟨51, 100, .globalsData []⟩)]⟩ }

/-! ### C1 -/

/-- C1: the claim states that when `cond == 1` and `cond == 0` are both
satisfiable together with the path constraints, the JUMPI handler forks
into two successors.  The code instead returns no successor at all: its
`sat_true`/`sat_false` probes call `is_true`, which checks entailment
(unsatisfiability of the negated condition), so for any solver whose unsat
answers are sound both probes fail and the handler's final branch yields the
empty list. -/
theorem jumpi_both_feasible_returns_no_successors
    (check : SolverCheck) (p : Project) (c d : String) (st : SEState) (g : Gen)
    (e : BVExpr) (dv : Val)
    (hcond : assocLookup st.registers.content c = some (.sym e))
    (hdest : assocLookup st.registers.content d = some dv)
    (hw : 0 < e.width)
    (hsat1 : Sat (st.constraints ++ [.eq e (.bvv 1 e.width)]))
    (hsat0 : Sat (st.constraints ++ [.eq e (.bvv 0 e.width)]))
    (hs1 : UnsatSound check (st.constraints ++ [.ne e (.bvv 1 e.width)]))
    (hs0 : UnsatSound check (st.constraints ++ [.ne e (.bvv 0 e.width)])) :
    TAC_Jumpi_handler check p c d st g
      = .ok ([], ⟨g.uuid + 1, g.aid + copyAidSpan st⟩) := by
  have hq1 : Sat (st.constraints ++ [.ne e (.bvv 1 e.width)]) :=
    sat_ne_one_of_sat_eq_zero _ _ hw hsat0
  have hq0 : Sat (st.constraints ++ [.ne e (.bvv 0 e.width)]) :=
    sat_ne_zero_of_sat_eq_one _ _ hw hsat1
  have hc1 : check (st.constraints ++ [.ne e (.bvv 1 e.width)]) ≠ .unsat :=
    fun hcontra => hs1 hcontra hq1
  have hc0 : check (st.constraints ++ [.ne e (.bvv 0 e.width)]) ≠ .unsat :=
    fun hcontra => hs0 hcontra hq0
  unfold TAC_Jumpi_handler
  simp only [copyG, regLookup, registers_copyState, hcond, hdest, Bind.bind, Except.bind,
    is_true, is_false, Constr.negc, constraints_copyState, hc1, hc0, decide_eq_true_eq,
    decide_eq_false hc1, decide_eq_false hc0]
  simp

/-- Witness for C1 at `wState`: `X` fresh and unconstrained, both branch
conditions satisfiable, an always-sat solver answer (sound, as both probes
are satisfiable), and the handler returns the empty successor list. -/
theorem jumpi_both_feasible_returns_no_successors_witness :
    Sat (wState.constraints ++ [.eq (.bvs "X_1" 256) (.bvv 1 256)])
    ∧ Sat (wState.constraints ++ [.eq (.bvs "X_1" 256) (.bvv 0 256)])
    ∧ TAC_Jumpi_handler (fun _ => .sat) sampleProject "condreg" "destreg" wState ⟨101, 60⟩
        = .ok ([], ⟨102, 60 + copyAidSpan wState⟩) := by
  refine ⟨⟨fun _ => 1, by decide⟩, ⟨fun _ => 0, by decide⟩, ?_⟩
  exact jumpi_both_feasible_returns_no_successors (fun _ => .sat) sampleProject
    "condreg" "destreg" wState ⟨101, 60⟩ (.bvs "X_1" 256) (.num 11)
    (by decide) (by decide) (by decide)
    ⟨fun _ => 1, by decide⟩ ⟨fun _ => 0, by decide⟩
    (fun h => absurd h (by decide)) (fun h => absurd h (by decide))

/-! ### C2 -/

/-- C2 (code evaluated at the failing input): for a concrete integer
condition — any integer, including nonzero ones such as 1 — the handler
falls through.  The `cond is True` identity test (flow_ops.py line 44) is
false for every Python int, so the jump branch is never taken and the sole
successor's pc is the fallthrough statement, not the destination. -/
theorem jumpi_concrete_int_falls_through
    (check : SolverCheck) (p : Project) (c d : String) (st : SEState) (g : Gen)
    (n : Nat) (dv : Val) (ft : String)
    (hcond : assocLookup st.registers.content c = some (.num n))
    (hdest : assocLookup st.registers.content d = some dv)
    (hft : next_statement p st = .ok ft) :
    TAC_Jumpi_handler check p c d st g
      = .ok ([{ copyState st g.uuid g.aid with pc := .sid ft }],
             ⟨g.uuid + 1, g.aid + copyAidSpan st⟩) := by
  have hft' : next_statement p (copyState st g.uuid g.aid) = .ok ft := by
    rw [next_statement_congr p (pc_copyState st g.uuid g.aid)]
    exact hft
  unfold TAC_Jumpi_handler
  simp only [copyG, regLookup, registers_copyState, hcond, hdest, Bind.bind, Except.bind, hft']

/-- Witness for C2 at `wStateNumOne` (condition is the integer 1, the
destination the concrete 0xB): the handler produces the fallthrough
successor `C0`. -/
theorem jumpi_concrete_int_falls_through_witness :
    assocLookup wStateNumOne.registers.content "condreg" = some (.num 1)
    ∧ next_statement sampleProject wStateNumOne = .ok "C0"
    ∧ TAC_Jumpi_handler (fun _ => .sat) sampleProject "condreg" "destreg" wStateNumOne
        ⟨101, 60⟩
      = .ok ([{ copyState wStateNumOne 101 60 with pc := .sid "C0" }],
             ⟨102, 60 + copyAidSpan wStateNumOne⟩) := by
  refine ⟨by decide, by decide, ?_⟩
  exact jumpi_concrete_int_falls_through (fun _ => .sat) sampleProject "condreg" "destreg"
    wStateNumOne ⟨101, 60⟩ 1 (.num 11) "C0" (by decide) (by decide) (by decide)

/-! ### C3 -/

/-- C3: the claim states that with `cond == 0` unsatisfiable and `cond == 1`
satisfiable the handler emits the single true successor with `cond == 1`
added.  The code instead returns no successor whenever `cond == 1` is
satisfiable but not entailed (for example under the pre-existing constraint
`X != 0` of the claim's own scenario): both `is_true` probes are entailment
checks and fail, so the handler reaches its empty-list branch. -/
theorem jumpi_only_true_feasible_returns_no_successors
    (check : SolverCheck) (p : Project) (c d : String) (st : SEState) (g : Gen)
    (e : BVExpr) (dv : Val)
    (hcond : assocLookup st.registers.content c = some (.sym e))
    (hdest : assocLookup st.registers.content d = some dv)
    (hw : 0 < e.width)
    (hunsat0 : ¬ Sat (st.constraints ++ [.eq e (.bvv 0 e.width)]))
    (hsat1 : Sat (st.constraints ++ [.eq e (.bvv 1 e.width)]))
    (hne1 : Sat (st.constraints ++ [.ne e (.bvv 1 e.width)]))
    (hs1 : UnsatSound check (st.constraints ++ [.ne e (.bvv 1 e.width)]))
    (hs0 : UnsatSound check (st.constraints ++ [.ne e (.bvv 0 e.width)])) :
    TAC_Jumpi_handler check p c d st g
      = .ok ([], ⟨g.uuid + 1, g.aid + copyAidSpan st⟩) := by
  have hq0 : Sat (st.constraints ++ [.ne e (.bvv 0 e.width)]) :=
    sat_ne_zero_of_sat_eq_one _ _ hw hsat1
  have hc1 : check (st.constraints ++ [.ne e (.bvv 1 e.width)]) ≠ .unsat :=
    fun hcontra => hs1 hcontra hne1
  have hc0 : check (st.constraints ++ [.ne e (.bvv 0 e.width)]) ≠ .unsat :=
    fun hcontra => hs0 hcontra hq0
  unfold TAC_Jumpi_handler
  simp only [copyG, regLookup, registers_copyState, hcond, hdest, Bind.bind, Except.bind,
    is_true, is_false, Constr.negc, constraints_copyState,
    decide_eq_false hc1, decide_eq_false hc0]
  simp

/-- Witness for C3 at `wStateNeZero`, the claim's own S4 scenario: `X != 0`
asserted, `X == 0` unsatisfiable, `X == 1` satisfiable but not entailed;
the handler returns no successors. -/
theorem jumpi_only_true_feasible_returns_no_successors_witness :
    (¬ Sat (wStateNeZero.constraints ++ [.eq (.bvs "X_1" 256) (.bvv 0 256)]))
    ∧ Sat (wStateNeZero.constraints ++ [.eq (.bvs "X_1" 256) (.bvv 1 256)])
    ∧ TAC_Jumpi_handler (fun _ => .sat) sampleProject "condreg" "destreg" wStateNeZero
        ⟨101, 60⟩
      = .ok ([], ⟨102, 60 + copyAidSpan wStateNeZero⟩) := by
  have hunsat0 : ¬ Sat (wStateNeZero.constraints ++ [.eq (.bvs "X_1" 256) (.bvv 0 256)]) := by
    rintro ⟨env, h⟩
    have h0 := h (Constr.ne (.bvs "X_1" 256) (.bvv 0 256)) (by decide)
    have h1 := h (Constr.eq (.bvs "X_1" 256) (.bvv 0 256)) (by decide)
    exact h0 h1
  refine ⟨hunsat0, ⟨fun _ => 1, by decide⟩, ?_⟩
  exact jumpi_only_true_feasible_returns_no_successors (fun _ => .sat) sampleProject
    "condreg" "destreg" wStateNeZero ⟨101, 60⟩ (.bvs "X_1" 256) (.num 11)
    (by decide) (by decide) (by decide) hunsat0
    ⟨fun _ => 1, by decide⟩ ⟨fun _ => 2, by decide⟩
    (fun h => absurd h (by decide)) (fun h => absurd h (by decide))

/-! ### C4 -/

theorem assocLookup_clonePlugins (u : Nat) (l : List (String × Plugin)) (k : String)
    (pl : Plugin) (h : assocLookup l k = some pl) :
    ∀ base, ∃ a', assocLookup (clonePlugins u base l) k = some ⟨a', u, pl.pdata⟩ := by
  induction l with
  | nil => simp [assocLookup] at h
  | cons hd tl ih =>
      obtain ⟨n, q⟩ := hd
      intro base
      rw [assocLookup_cons] at h
      simp only [clonePlugins, assocLookup_cons]
      by_cases hn : n = k
      · simp only [hn, if_true] at h ⊢
        refine ⟨base, ?_⟩
        rw [Option.some_inj] at h
        rw [h]
      · simp only [hn, if_false] at h ⊢
        exact ih h (base + 1)

theorem plugin_copyState (s : SEState) (u base : Nat) (k : String) (pl : Plugin)
    (h : s.plugin? k = some pl) :
    ∃ a', (copyState s u base).plugin? k = some ⟨a', u, pl.pdata⟩ := by
  unfold SEState.plugin? at h ⊢
  exact assocLookup_clonePlugins u s.active_plugins.content k pl h _

theorem pc_appendConstraint (st : SEState) (c : Constr) :
    (st.appendConstraint c).pc = st.pc := rfl

theorem plugin_set_pc (st : SEState) (v : PCv) (k : String) :
    SEState.plugin? { st with pc := v } k = st.plugin? k := rfl

/-- C4 counterexample: a state in which the source's fork branch fires
(contradictory path constraints, so for a sound solver both entailment
probes succeed) and whose destination register holds the symbolic value `Y`.
The handler raises no SymbolicJumpTarget: it returns two successors, the
first of which carries the symbolic `Y` as its pc. -/
theorem jumpi_fork_symbolic_dest_counterexample :
    (¬ Sat (wStateFork.constraints ++ [.ne (.bvs "X_1" 256) (.bvv 1 256)]))
    ∧ (¬ Sat (wStateFork.constraints ++ [.ne (.bvs "X_1" 256) (.bvv 0 256)]))
    ∧ ((TAC_Jumpi_handler (fun _ => .unsat) sampleProject "condreg" "destreg" wStateFork
          ⟨101, 60⟩).map (fun r => r.1.map (fun s => (s.pc, s.error))))
        = .ok [(.raw (.sym (.bvs "Y_1" 256)), none), (.sid "C0", none)] := by
  refine ⟨?_, ?_, by decide⟩
  · rintro ⟨env, h⟩
    have h0 := h (Constr.eq (.bvs "X_1" 256) (.bvv 0 256)) (by decide)
    have h1 := h (Constr.eq (.bvs "X_1" 256) (.bvv 1 256)) (by decide)
    simp only [Constr.holds, BVExpr.eval] at h0 h1
    rw [h0] at h1
    exact absurd h1 (by decide)
  · rintro ⟨env, h⟩
    have h0 := h (Constr.eq (.bvs "X_1" 256) (.bvv 0 256)) (by decide)
    have h1 := h (Constr.eq (.bvs "X_1" 256) (.bvv 1 256)) (by decide)
    simp only [Constr.holds, BVExpr.eval] at h0 h1
    rw [h0] at h1
    exact absurd h1 (by decide)

/-- C4 amended: in the both-probes-succeed fork case the handler applies no
destination-concreteness check at all: it returns the true successor with
pc set to the raw destination value — even a symbolic one — and `cond == 1`
appended, together with the fallthrough successor carrying `cond == 0`.
SymbolicJumpTarget is raised for a non-concrete destination only in the
only-true branch (second conjunct) and in the concrete-`True` branch. -/
theorem jumpi_fork_no_concreteness_check
    (check check' : SolverCheck) (p : Project) (c d : String) (st : SEState) (g : Gen)
    (e : BVExpr) (dv : Val) (ft : String) (a sid : Nat) (cs : List Constr) (dd : Bool)
    (hcond : assocLookup st.registers.content c = some (.sym e))
    (hdest : assocLookup st.registers.content d = some dv)
    (hsolver : st.plugin? "solver" = some ⟨a, sid, .solverData cs dd⟩)
    (hft : next_statement p st = .ok ft)
    (hu1 : check (st.constraints ++ [.ne e (.bvv 1 e.width)]) = .unsat)
    (hu0 : check (st.constraints ++ [.ne e (.bvv 0 e.width)]) = .unsat)
    (hx1 : check' (st.constraints ++ [.ne e (.bvv 1 e.width)]) = .unsat)
    (hx0 : check' (st.constraints ++ [.ne e (.bvv 0 e.width)]) ≠ .unsat)
    (hdsym : concrete dv = false) :
    (∃ t f : SEState, ∃ g2 : Gen,
      TAC_Jumpi_handler check p c d st g = .ok ([t, f], g2)
      ∧ t.pc = .raw dv
      ∧ t.constraints = st.constraints ++ [.eq e (.bvv 1 e.width)]
      ∧ f.pc = .sid ft
      ∧ f.constraints = st.constraints ++ [.eq e (.bvv 0 e.width)])
    ∧ TAC_Jumpi_handler check' p c d st g
        = .error (.symbolicError "Symbolic jump target") := by
  have hcs : st.constraints = cs := constraints_of_plugin st a sid cs dd hsolver
  have hft1 : next_statement p (copyState st g.uuid g.aid) = .ok ft := by
    rw [next_statement_congr p (pc_copyState st g.uuid g.aid)]
    exact hft
  constructor
  · obtain ⟨a1, hpl1⟩ := plugin_copyState st g.uuid g.aid "solver" _ hsolver
    obtain ⟨a2, hpl2⟩ := plugin_copyState (copyState st g.uuid g.aid) (g.uuid + 1)
      (g.aid + copyAidSpan st) "solver" _ hpl1
    refine ⟨SEState.appendConstraint { copyState (copyState st g.uuid g.aid) (g.uuid + 1)
        (g.aid + copyAidSpan st) with pc := .raw dv } (.eq e (.bvv 1 e.width)),
      SEState.appendConstraint { copyState st g.uuid g.aid with pc := .sid ft }
        (.eq e (.bvv 0 e.width)),
      ⟨g.uuid + 1 + 1, g.aid + copyAidSpan st + copyAidSpan (copyState st g.uuid g.aid)⟩,
      ?_, ?_, ?_, ?_, ?_⟩
    · unfold TAC_Jumpi_handler
      simp only [copyG, regLookup, registers_copyState, hcond, hdest, Bind.bind, Except.bind,
        is_true, is_false, Constr.negc, constraints_copyState, hu1, hu0, decide_eq_true_eq,
        hft1]
      simp
    · exact pc_appendConstraint _ _
    · rw [hcs]
      exact constraints_appendConstraint _ _ a2 (g.uuid + 1) cs dd
        (by rw [plugin_set_pc]; exact hpl2)
    · exact pc_appendConstraint _ _
    · rw [hcs]
      exact constraints_appendConstraint _ _ a1 g.uuid cs dd
        (by rw [plugin_set_pc]; exact hpl1)
  · unfold TAC_Jumpi_handler
    simp only [copyG, regLookup, registers_copyState, hcond, hdest, Bind.bind, Except.bind,
      is_true, is_false, Constr.negc, constraints_copyState, hx1,
      decide_eq_false hx0, decide_eq_true_eq, hdsym]
    simp [hdsym]

/-- Witness for C4's amended theorem at `wStateFork` (symbolic destination
`Y`): with a solver answering unsat on both probes the fork produces the two
successors, and with one answering unsat only on the true probe the handler
raises SymbolicJumpTarget. -/
theorem jumpi_fork_no_concreteness_check_witness :
    assocLookup wStateFork.registers.content "destreg" = some (.sym (.bvs "Y_1" 256))
    ∧ ((∃ t f : SEState, ∃ g2 : Gen,
        TAC_Jumpi_handler (fun _ => .unsat) sampleProject "condreg" "destreg" wStateFork
          ⟨101, 60⟩ = .ok ([t, f], g2)
        ∧ t.pc = .raw (.sym (.bvs "Y_1" 256))
        ∧ t.constraints = wStateFork.constraints
            ++ [.eq (.bvs "X_1" 256) (.bvv 1 256)]
        ∧ f.pc = .sid "C0"
        ∧ f.constraints = wStateFork.constraints
            ++ [.eq (.bvs "X_1" 256) (.bvv 0 256)])
      ∧ TAC_Jumpi_handler
          (fun q => if (Constr.ne (.bvs "X_1" 256) (.bvv 0 256)) ∈ q then .sat else .unsat)
          sampleProject "condreg" "destreg" wStateFork ⟨101, 60⟩
        = .error (.symbolicError "Symbolic jump target")) := by
  refine ⟨by decide, ?_⟩
  exact jumpi_fork_no_concreteness_check (fun _ => .unsat)
    (fun q => if (Constr.ne (.bvs "X_1" 256) (.bvv 0 256)) ∈ q then .sat else .unsat)
    sampleProject "condreg" "destreg" wStateFork ⟨101, 60⟩ (.bvs "X_1" 256)
    (.sym (.bvs "Y_1" 256)) "C0" 50 100
    [.eq (.bvs "X_1" 256) (.bvv 0 256), .eq (.bvs "X_1" 256) (.bvv 1 256)] false
    (by decide) (by decide) (by decide) (by decide) (by decide) (by decide)
    (by decide) (fun h => absurd h (by decide)) (by decide)

/-! ### C5 -/

/-- C5: for a state whose current statement is a TAC_Jumpi, the `handle`
attribute lookup inside single_step_state fails — the class defines its step
function under the name `handler` — so the catch-all fires: the state itself
comes back as the sole successor with the AttributeError recorded as its
error and halt set.  A JUMPI therefore never produces forked successors
through the simulation manager. -/
theorem single_step_jumpi_attribute_error
    (handlers : String → Option HandlerFn) (check : SolverCheck) (p : Project)
    (gop : GOpts) (bp : String → SEState → SEState) (st : SEState) (gen : Gen)
    (stmt : Statement) (c d : String)
    (hstmt : currStmt p st = .ok stmt)
    (hop : stmt.op = .jumpi c d)
    (hnoinspect : st.plugin? "inspect" = none) :
    single_step_state ⟨handlers, check, p, [], gop, bp⟩ st gen
      = .ok ([{ st with error := some (.attributeError "handle"), halt := true }], gen) := by
  unfold single_step_state triggerInspect
  simp only [hstmt, Bind.bind, Except.bind, hnoinspect, getattrHandle, hop, List.foldl_nil]

/-- Witness for C5: the concrete state at the JUMPI of `sampleProject`. -/
theorem single_step_jumpi_attribute_error_witness :
    currStmt sampleProject wState = .ok stJumpi
    ∧ wState.plugin? "inspect" = none
    ∧ single_step_state
        ⟨fun _ => none, fun _ => .sat, sampleProject, [], ⟨false, 256, false⟩, fun _ s => s⟩
        wState ⟨101, 60⟩
      = .ok ([{ wState with error := some (.attributeError "handle"), halt := true }],
             ⟨101, 60⟩) := by
  refine ⟨by decide, by decide, ?_⟩
  exact single_step_jumpi_attribute_error (fun _ => none) (fun _ => .sat) sampleProject
    ⟨false, 256, false⟩ (fun _ s => s) wState ⟨101, 60⟩ stJumpi "condreg" "destreg"
    (by decide) rfl (by decide)

/-! ### C8 -/

/-- C8: set_next_pc past the last statement of the current block.  With
exactly one CFG successor the pc becomes the first statement of that block;
with more than one it becomes the first statement of the block's
fallthrough_edge; with zero successors the VMNoSuccessors raised inside
get_fallthrough_pc is caught by set_next_pc, which halts the state and lets
no error escape. -/
theorem set_next_pc_end_of_block
    (p : Project) (st : SEState) (stmt : Statement) (bb : Block) (idx : Nat)
    (hstmt : currStmt p st = .ok stmt)
    (hbb : p.block? stmt.block_id = .ok bb)
    (hidx : bb.statements.findIdx? (· = stmt) = some idx)
    (hlast : bb.statements.length = idx + 1) :
    (bb.succ = [] → set_next_pc p st = .ok { st with halt := true })
    ∧ (∀ b1 blk fi, bb.succ = [b1] → p.block? b1 = .ok blk →
        blk.statements.head? = some fi →
        set_next_pc p st = .ok { st with pc := .sid fi.id })
    ∧ (∀ b1 b2 rest fb fblk fi, bb.succ = b1 :: b2 :: rest →
        bb.fallthrough_edge = some fb → p.block? fb = .ok fblk →
        fblk.statements.head? = some fi →
        set_next_pc p st = .ok { st with pc := .sid fi.id }) := by
  have hdrop : (bb.statements.drop (idx + 1)).head? = none := by
    rw [List.drop_eq_nil_of_le (le_of_eq hlast)]
    rfl
  refine ⟨?_, ?_, ?_⟩
  · intro hsucc
    unfold set_next_pc next_pc_core get_fallthrough_pc
    simp only [hstmt, hbb, hidx, hdrop, hsucc, Bind.bind, Except.bind]
  · intro b1 blk fi hsucc hblk hfi
    unfold set_next_pc next_pc_core get_fallthrough_pc Block.first_ins?
    simp only [hstmt, hbb, hidx, hdrop, hsucc, hblk, hfi, Bind.bind, Except.bind]
  · intro b1 b2 rest fb fblk fi hsucc hfb hfblk hfi
    unfold set_next_pc next_pc_core get_fallthrough_pc Block.first_ins?
    simp only [hstmt, hbb, hidx, hdrop, hsucc, hfb, hfblk, hfi, Bind.bind, Except.bind]

/-- Witness for C8 at block B of `sampleProject` (its single statement, zero
successors): the state is halted without an escaping error; the one- and
multi-successor clauses of the theorem are instantiated vacuously at this
block and hold for blocks C and A respectively by the same theorem. -/
theorem set_next_pc_end_of_block_witness :
    currStmt sampleProject { wState with pc := .sid "B0" } = .ok stB0
    ∧ blkB.statements.length = 0 + 1
    ∧ ((blkB.succ = [] →
        set_next_pc sampleProject { wState with pc := .sid "B0" }
          = .ok { { wState with pc := .sid "B0" } with halt := true })
      ∧ (∀ b1 blk fi, blkB.succ = [b1] → sampleProject.block? b1 = .ok blk →
          blk.statements.head? = some fi →
          set_next_pc sampleProject { wState with pc := .sid "B0" }
            = .ok { { wState with pc := .sid "B0" } with pc := .sid fi.id })
      ∧ (∀ b1 b2 rest fb fblk fi, blkB.succ = b1 :: b2 :: rest →
          blkB.fallthrough_edge = some fb → sampleProject.block? fb = .ok fblk →
          fblk.statements.head? = some fi →
          set_next_pc sampleProject { wState with pc := .sid "B0" }
            = .ok { { wState with pc := .sid "B0" } with pc := .sid fi.id })) := by
  refine ⟨by decide, by decide, ?_⟩
  exact set_next_pc_end_of_block sampleProject { wState with pc := .sid "B0" } stB0 blkB 0
    (by decide) (by decide) (by decide) (by decide)

/-! ### C7 -/

/-- C7: when the statement handler invoked inside single_step_state raises,
the exception is caught there: the stepped state's error field is set to the
exception, its halt flag becomes true, and that state is the only
handler-produced successor.  The enclosing step then re-bins it into the
errored stash within the same step (disposing its solver context at the end
of that step). -/
theorem handler_exception_rebinned_to_errored
    (handlers : String → Option HandlerFn) (check : SolverCheck) (p : Project)
    (gop : GOpts) (bp : String → SEState → SEState) (st : SEState) (gen : Gen)
    (stmt : Statement) (name : String) (h : HandlerFn) (e : PyExc)
    (find prune : SEState → Bool) (ic : Nat) (errs : List String)
    (hstmt : currStmt p st = .ok stmt)
    (hop : stmt.op = .other name)
    (hh : handlers name = some h)
    (hfail : h st gen = .error e)
    (hnoinspect : st.plugin? "inspect" = none)
    (hfind : find { st with error := some e, halt := true } = false) :
    single_step_state ⟨handlers, check, p, [], gop, bp⟩ st gen
      = .ok ([{ st with error := some e, halt := true }], gen)
    ∧ step ⟨handlers, check, p, [], gop, bp⟩ find prune
        ⟨⟨[st], [], [], [], [], []⟩, ic, errs⟩ gen
      = .ok (⟨⟨[], [], [], [], [],
              [SEState.disposeSolver { st with error := some e, halt := true }]⟩,
             ic + 1, errs⟩, gen) := by
  have hsss : single_step_state ⟨handlers, check, p, [], gop, bp⟩ st gen
      = .ok ([{ st with error := some e, halt := true }], gen) := by
    unfold single_step_state triggerInspect
    simp only [hstmt, Bind.bind, Except.bind, hnoinspect, getattrHandle, hop, hh, hfail,
      List.foldl_nil]
  refine ⟨hsss, ?_⟩
  unfold step
  simp only [List.foldl_nil, List.foldlM_cons, List.foldlM_nil, hsss, Bind.bind, Except.bind,
    List.nil_append]
  cases hL : gop.LAZY_SOLVES <;>
    simp [Stashes.move, Stashes.get, Stashes.set, List.filter_cons, List.filter_nil, hfind, hL,
      pure, Except.pure]

/-- Witness for C7: a concrete always-raising external handler for the STOP
statement of block B; after one step the state sits in the errored stash
with the error recorded and halt set. -/
theorem handler_exception_rebinned_to_errored_witness :
    ((fun n => if n = "STOP"
        then some ((fun _ _ => .error (.valueError "boom")) : HandlerFn)
        else none) : String → Option HandlerFn) "STOP"
      = some (fun _ _ => .error (.valueError "boom"))
    ∧ step ⟨(fun n => if n = "STOP"
              then some ((fun _ _ => .error (.valueError "boom")) : HandlerFn) else none),
            fun _ => .sat, sampleProject, [], ⟨false, 256, false⟩, fun _ s => s⟩
        (fun _ => false) (fun _ => false)
        ⟨⟨[{ wState with pc := .sid "B0" }], [], [], [], [], []⟩, 7, []⟩ ⟨101, 60⟩
      = .ok (⟨⟨[], [], [], [], [],
              [SEState.disposeSolver
                { { wState with pc := .sid "B0" } with
                  error := some (.valueError "boom"), halt := true }]⟩,
             8, []⟩, ⟨101, 60⟩) := by
  refine ⟨rfl, ?_⟩
  exact (handler_exception_rebinned_to_errored
    (fun n => if n = "STOP"
      then some ((fun _ _ => .error (.valueError "boom")) : HandlerFn) else none)
    (fun _ => .sat) sampleProject ⟨false, 256, false⟩ (fun _ s => s)
    { wState with pc := .sid "B0" } ⟨101, 60⟩ stB0 "STOP"
    (fun _ _ => .error (.valueError "boom")) (.valueError "boom")
    (fun _ => false) (fun _ => false) 7 []
    (by decide) rfl rfl rfl (by decide) rfl).2

/-! ### C6 -/

theorem assocLookup_append {α : Type} (l1 l2 : List (String × α)) (k : String) :
    assocLookup (l1 ++ l2) k
      = match assocLookup l1 k with
        | some v => some v
        | none => assocLookup l2 k := by
  induction l1 with
  | nil => rfl
  | cons hd tl ih =>
      obtain ⟨n, w⟩ := hd
      by_cases hn : n = k <;> simp [assocLookup_cons, hn, ih]

theorem assocLookup_map_setKey_self {α : Type} (l : List (String × α)) (k : String) (v : α)
    (hany : l.any (fun p => p.1 = k) = true) :
    assocLookup (l.map (fun p => if p.1 = k then (k, v) else p)) k = some v := by
  induction l with
  | nil => simp at hany
  | cons hd tl ih =>
      obtain ⟨n, w⟩ := hd
      simp only [List.map_cons]
      by_cases hn : n = k
      · have hh : (if (n, w).1 = k then (k, v) else (n, w)) = (k, v) := by simp [hn]
        rw [hh, assocLookup_cons]
        simp
      · have hh : (if (n, w).1 = k then (k, v) else (n, w)) = (n, w) := by simp [hn]
        rw [hh, assocLookup_cons]
        simp only [if_neg hn]
        simp only [List.any_cons] at hany
        exact ih (by simpa [hn] using hany)

theorem assocLookup_assocSet_self {α : Type} (l : List (String × α)) (k : String) (v : α) :
    assocLookup (assocSet l k v) k = some v := by
  unfold assocSet
  cases hany : l.any (fun p => p.1 = k) with
  | true =>
      simp only [hany, if_true]
      exact assocLookup_map_setKey_self l k v hany
  | false =>
      simp only [hany, Bool.false_eq_true, if_false]
      rw [assocLookup_append]
      have hnone : assocLookup l k = none := by
        induction l with
        | nil => rfl
        | cons hd tl ih =>
            obtain ⟨n, w⟩ := hd
            simp only [List.any_cons, Bool.or_eq_false_iff] at hany
            rw [assocLookup_cons]
            simp only [if_neg (by simpa using hany.1)]
            exact ih hany.2
      rw [hnone, assocLookup_cons]
      simp

theorem assocLookup_map_setKey {α : Type} (l : List (String × α)) (k k' : String) (v : α)
    (hkk : k ≠ k') :
    assocLookup (l.map (fun p => if p.1 = k then (k, v) else p)) k' = assocLookup l k' := by
  induction l with
  | nil => rfl
  | cons hd tl ih =>
      obtain ⟨n, w⟩ := hd
      simp only [List.map_cons]
      by_cases hn : n = k
      · subst hn
        have hh : (if (n, w).1 = n then (n, v) else (n, w)) = (n, v) := by simp
        rw [hh, assocLookup_cons, assocLookup_cons]
        simp only [if_neg hkk]
        exact ih
      · have hh : (if (n, w).1 = k then (k, v) else (n, w)) = (n, w) := by simp [hn]
        rw [hh, assocLookup_cons, assocLookup_cons]
        by_cases hn' : n = k' <;> simp [hn', ih]

theorem assocLookup_assocSet_ne {α : Type} (l : List (String × α)) (k k' : String) (v : α)
    (hkk : k ≠ k') : assocLookup (assocSet l k v) k' = assocLookup l k' := by
  unfold assocSet
  cases hany : l.any (fun p => p.1 = k) with
  | true =>
      simp only [hany, if_true]
      exact assocLookup_map_setKey l k k' v hkk
  | false =>
      simp only [hany, Bool.false_eq_true, if_false]
      rw [assocLookup_append]
      cases hl : assocLookup l k' with
      | some w => rfl
      | none => rw [assocLookup_cons]; simp [hkk, assocLookup]

theorem except_bind_ok {ε α β : Type} {x : Except ε α} {f : α → Except ε β} {b : β}
    (h : x >>= f = .ok b) : ∃ a, x = .ok a ∧ f a = .ok b := by
  cases x with
  | error e => simp [Bind.bind, Except.bind] at h
  | ok a => exact ⟨a, rfl, by simpa [Bind.bind, Except.bind] using h⟩

theorem initCalldata_preserves (st0 : SEState) (cd : Option String) (sz : Option Nat)
    (aidcd : Nat) (st1 : SEState) (h : initCalldata st0 cd sz aidcd = .ok st1) :
    st1.balance = st0.balance ∧ st1.start_balance = st0.start_balance
      ∧ st1.ctx = st0.ctx ∧ st1.xid = st0.xid := by
  unfold initCalldata at h
  cases cd with
  | none =>
      simp only [Except.ok.injEq] at h
      subst h
      exact ⟨rfl, rfl, rfl, rfl⟩
  | some cdstr =>
      cases sz with
      | some n =>
          dsimp only [] at h
          split at h
          · obtain ⟨m, hm, h⟩ := except_bind_ok h
            simp only [Except.ok.injEq] at h
            subst h
            exact ⟨rfl, rfl, rfl, rfl⟩
          · simp at h
      | none =>
          dsimp only [] at h
          obtain ⟨m, hm, h⟩ := except_bind_ok h
          simp only [Except.ok.injEq] at h
          subst h
          exact ⟨rfl, rfl, rfl, rfl⟩

theorem ctxHexStep_preserves (key : String) (o : Option String) (st st' : SEState)
    (h : ctxHexStep key o st = .ok st') :
    st'.balance = st.balance ∧ st'.start_balance = st.start_balance ∧ st'.xid = st.xid
      ∧ ∀ k', key ≠ k' → assocLookup st'.ctx.content k' = assocLookup st.ctx.content k' := by
  unfold ctxHexStep at h
  cases o with
  | none =>
      simp only [Except.ok.injEq] at h
      subst h
      exact ⟨rfl, rfl, rfl, fun _ _ => rfl⟩
  | some s =>
      dsimp only [] at h
      cases hp : parseHex s with
      | error e => rw [hp] at h; simp [Bind.bind, Except.bind] at h
      | ok v =>
          rw [hp] at h
          simp only [Bind.bind, Except.bind, Except.ok.injEq] at h
          subst h
          exact ⟨rfl, rfl, rfl, fun k' hk => assocLookup_assocSet_ne _ key k' _ hk⟩

theorem ctxNumStep_preserves (key : String) (o : Option Nat) (st : SEState) :
    (ctxNumStep key o st).balance = st.balance
    ∧ (ctxNumStep key o st).start_balance = st.start_balance
    ∧ (ctxNumStep key o st).xid = st.xid
    ∧ ∀ k', key ≠ k' → assocLookup (ctxNumStep key o st).ctx.content k'
        = assocLookup st.ctx.content k' := by
  cases o with
  | none => exact ⟨rfl, rfl, rfl, fun _ _ => rfl⟩
  | some n => exact ⟨rfl, rfl, rfl, fun k' hk => assocLookup_assocSet_ne _ key k' _ hk⟩

theorem balanceStep_preserves (o : Option Nat) (st : SEState) :
    (balanceStep o st).balance = st.balance
    ∧ (balanceStep o st).start_balance = st.start_balance
    ∧ (balanceStep o st).xid = st.xid
    ∧ (balanceStep o st).ctx = st.ctx := by
  cases o with
  | none => exact ⟨rfl, rfl, rfl, rfl⟩
  | some n => exact ⟨rfl, rfl, rfl, rfl⟩

/-- What set_init_ctx does to the balance-related fields: it never touches
`balance` or `start_balance`, and the only write to `ctx["CALLVALUE"]` is
the final one, storing the concrete 256-bit value when supplied. -/
theorem set_init_ctx_preserves (st0 st1 : SEState) (ictx : InitCtx) (aidcd : Nat)
    (h : set_init_ctx st0 ictx aidcd = .ok st1) :
    st1.balance = st0.balance ∧ st1.start_balance = st0.start_balance ∧ st1.xid = st0.xid
    ∧ (∀ v, ictx.CALLVALUE = some v →
        assocLookup st1.ctx.content "CALLVALUE" = some (.bvv v 256))
    ∧ (ictx.CALLVALUE = none →
        assocLookup st1.ctx.content "CALLVALUE" = assocLookup st0.ctx.content "CALLVALUE") := by
  unfold set_init_ctx at h
  cases h1 : initCalldata st0 ictx.CALLDATA ictx.CALLDATASIZE aidcd with
  | error e => rw [h1] at h; simp [Bind.bind, Except.bind] at h
  | ok s1 =>
  rw [h1] at h
  simp only [Bind.bind, Except.bind] at h
  cases h2 : ctxHexStep "CALLER" ictx.CALLER s1 with
  | error e => rw [h2] at h; simp at h
  | ok s2 =>
  rw [h2] at h
  simp only [] at h
  cases h3 : ctxHexStep "ORIGIN" ictx.ORIGIN s2 with
  | error e => rw [h3] at h; simp at h
  | ok s3 =>
  rw [h3] at h
  simp only [] at h
  cases h5 : ctxHexStep "ADDRESS" ictx.ADDRESS (balanceStep ictx.BALANCE s3) with
  | error e => rw [h5] at h; simp at h
  | ok s5 =>
  rw [h5] at h
  simp only [Except.ok.injEq] at h
  obtain ⟨b1, sb1, ctx1, x1⟩ := initCalldata_preserves _ _ _ _ _ h1
  obtain ⟨b2, sb2, x2, c2⟩ := ctxHexStep_preserves _ _ _ _ h2
  obtain ⟨b3, sb3, x3, c3⟩ := ctxHexStep_preserves _ _ _ _ h3
  obtain ⟨b4, sb4, x4, c4⟩ := balanceStep_preserves ictx.BALANCE s3
  obtain ⟨b5, sb5, x5, c5⟩ := ctxHexStep_preserves _ _ _ _ h5
  obtain ⟨b6, sb6, x6, c6⟩ := ctxNumStep_preserves "NUMBER" ictx.NUMBER s5
  obtain ⟨b7, sb7, x7, c7⟩ :=
    ctxNumStep_preserves "DIFFICULTY" ictx.DIFFICULTY (ctxNumStep "NUMBER" ictx.NUMBER s5)
  obtain ⟨b8, sb8, x8, c8⟩ := ctxNumStep_preserves "TIMESTAMP" ictx.TIMESTAMP
    (ctxNumStep "DIFFICULTY" ictx.DIFFICULTY (ctxNumStep "NUMBER" ictx.NUMBER s5))
  subst h
  obtain ⟨b9, sb9, x9, c9⟩ := ctxNumStep_preserves "CALLVALUE" ictx.CALLVALUE
    (ctxNumStep "TIMESTAMP" ictx.TIMESTAMP
      (ctxNumStep "DIFFICULTY" ictx.DIFFICULTY (ctxNumStep "NUMBER" ictx.NUMBER s5)))
  have hpre : assocLookup (ctxNumStep "TIMESTAMP" ictx.TIMESTAMP
      (ctxNumStep "DIFFICULTY" ictx.DIFFICULTY
        (ctxNumStep "NUMBER" ictx.NUMBER s5))).ctx.content "CALLVALUE"
      = assocLookup st0.ctx.content "CALLVALUE" := by
    rw [c8 _ (by decide), c7 _ (by decide), c6 _ (by decide),
      c5 _ (by decide), c4, c3 _ (by decide), c2 _ (by decide), ctx1]
  refine ⟨?_, ?_, ?_, ?_, ?_⟩
  · rw [b9, b8, b7, b6, b5, b4, b3, b2, b1]
  · rw [sb9, sb8, sb7, sb6, sb5, sb4, sb3, sb2, sb1]
  · rw [x9, x8, x7, x6, x5, x4, x3, x2, x1]
  · intro v hv
    rw [hv]
    exact assocLookup_assocSet_self _ _ _
  · intro hv
    rw [hv]
    exact hpre

/-- C6 amended: in every freshly constructed state, `balance` is
`start_balance` plus the CALLVALUE term resolved from the ctx as it stood at
balance-initialization time — the empty ctx, hence the fresh symbolic
`CALLVALUE_{xid}`.  A concrete CALLVALUE supplied through init_ctx is stored
into ctx only afterwards (with no constraint tying it to the symbol), so the
equation `balance = start_balance + ctx(CALLVALUE)` survives construction
exactly when init_ctx does not supply CALLVALUE; reset re-establishes the
same symbolic form for the new xid. -/
theorem balance_uses_symbolic_callvalue
    (xid : Nat) (p : Project) (ictx : InitCtx) (opts : Option (List String))
    (mcs : Option Nat) (pcs : Bool) (g : GOpts) (nowTs : Nat) (uuid aidBase : Nat)
    (st : SEState)
    (h : mkState xid p ictx opts mcs pcs g nowTs uuid aidBase = .ok st) :
    (st.balance = .add (.bvs s!"BALANCE_{xid}" 256) (.bvs s!"CALLVALUE_{xid}" 256)
      ∧ st.start_balance = .bvs s!"BALANCE_{xid}" 256)
    ∧ (∀ v, ictx.CALLVALUE = some v →
        assocLookup st.ctx.content "CALLVALUE" = some (.bvv v 256))
    ∧ (ictx.CALLVALUE = none →
        st.balance = .add st.start_balance (ctx_or_symbolic "CALLVALUE" st.ctx.content st.xid))
    ∧ (∀ (s2 : SEState) (x2 u2 b2 : Nat),
        (resetState s2 x2 g u2 b2).balance
          = .add (.bvs s!"BALANCE_{x2}" 256) (.bvs s!"CALLVALUE_{x2}" 256)) := by
  unfold mkState at h
  obtain ⟨hb, hsb, hx, hcv, hcn⟩ := set_init_ctx_preserves _ _ _ _ h
  refine ⟨⟨?_, ?_⟩, hcv, ?_, ?_⟩
  · rw [hb]
    rfl
  · rw [hsb]
    rfl
  · intro hv
    have hnone : assocLookup st.ctx.content "CALLVALUE" = none := by
      rw [hcn hv]
      rw [show (initStateCore xid p opts mcs pcs g nowTs uuid aidBase).ctx.content
          = assocSet [] "CODESIZE-ADDRESS" (.bvv p.codeLen 256) from rfl]
      rw [assocLookup_assocSet_ne _ _ _ _ (by decide)]
      rfl
    unfold ctx_or_symbolic
    rw [hnone, hb, hsb, hx]
    rfl
  · intro s2 x2 u2 b2
    rfl

/-- The concrete state built with init_ctx `{CALLVALUE: 5}` (no CALLDATA):
construction always succeeds there, so the default is irrelevant. -/
def c6State : SEState :=
  ((mkState 1 sampleProject { emptyCtx with CALLVALUE := some 5 } none (some 256) false
      ⟨false, 1024, false⟩ 1700000000 100 0).toOption).getD wState

/-- C6 counterexample: constructing with a concrete CALLVALUE of 5 stores
`BVV(5, 256)` in ctx but leaves `balance = start_balance + CALLVALUE_1`
(the symbol): the claimed equation fails syntactically, and semantically —
the all-zero environment satisfies every constraint of the fresh state yet
evaluates the two sides to 0 and 5. -/
theorem balance_concrete_callvalue_counterexample :
    mkState 1 sampleProject { emptyCtx with CALLVALUE := some 5 } none (some 256) false
        ⟨false, 1024, false⟩ 1700000000 100 0 = .ok c6State
    ∧ assocLookup c6State.ctx.content "CALLVALUE" = some (.bvv 5 256)
    ∧ c6State.balance ≠ .add c6State.start_balance (.bvv 5 256)
    ∧ (∃ env : Env, (∀ c ∈ c6State.constraints, c.holds env)
        ∧ BVExpr.eval env c6State.balance
            ≠ BVExpr.eval env (.add c6State.start_balance (.bvv 5 256))) := by
  refine ⟨by decide, by decide, by decide, ⟨fun _ => 0, by decide, by decide⟩⟩

/-- Witness for C6's amended theorem at the concrete CALLVALUE-5 state. -/
theorem balance_uses_symbolic_callvalue_witness :
    (mkState 1 sampleProject { emptyCtx with CALLVALUE := some 5 } none (some 256) false
        ⟨false, 1024, false⟩ 1700000000 100 0 = .ok c6State)
    ∧ assocLookup c6State.ctx.content "CALLVALUE" = some (.bvv 5 256)
    ∧ c6State.balance = .add (.bvs "BALANCE_1" 256) (.bvs "CALLVALUE_1" 256) := by
  refine ⟨by decide, ?_, ?_⟩
  · exact (balance_uses_symbolic_callvalue 1 sampleProject
      { emptyCtx with CALLVALUE := some 5 } none (some 256) false ⟨false, 1024, false⟩
      1700000000 100 0 c6State (by decide)).2.1 5 rfl
  · exact (balance_uses_symbolic_callvalue 1 sampleProject
      { emptyCtx with CALLVALUE := some 5 } none (some 256) false ⟨false, 1024, false⟩
      1700000000 100 0 c6State (by decide)).1.1

/-! ### C9 -/

theorem read_write_self (m : LambdaMem) (i : Nat) (v : BVExpr) :
    (m.write i v).read? i = some v := by
  simp [LambdaMem.write, LambdaMem.read?]

theorem read_write_ne (m : LambdaMem) (i j : Nat) (v : BVExpr) (h : j ≠ i) :
    (m.write i v).read? j = m.read? j := by
  unfold LambdaMem.write LambdaMem.read?
  rw [List.find?_cons_of_neg]
  simp only [decide_eq_true_eq]
  exact fun hc => h hc.symm

/-- The prefix-writing loop of set_init_ctx succeeds on well-formed chunks
and is fully characterized by: positions outside `[idx, idx + len)` are
untouched, and the chunk at offset `k` yields a symbolic byte for `SS` and
the parsed 8-bit value otherwise. -/
theorem writeChunks_ok (chunks : List String) :
    ∀ (m : LambdaMem) (idx : Nat),
      (∀ cb ∈ chunks, cb = "SS" ∨ ∃ v, parseHex cb = .ok v) →
      ∃ m', writeChunks m idx chunks = .ok m'
        ∧ (∀ j, (j < idx ∨ idx + chunks.length ≤ j) → m'.read? j = m.read? j)
        ∧ (∀ k cb, chunks.get? k = some cb →
            m'.read? (idx + k)
              = if cb = "SS" then some (symCalldataByte (idx + k))
                else (parseHex cb).toOption.map (fun v => BVExpr.bvv v 8)) := by
  induction chunks with
  | nil =>
      intro m idx _
      exact ⟨m, rfl, fun j _ => rfl, fun k cb hk => by simp at hk⟩
  | cons cb rest ih =>
      intro m idx hvalid
      by_cases hss : cb = "SS"
      · subst hss
        obtain ⟨m', hwc, hfr, hpt⟩ :=
          ih (m.write idx (symCalldataByte idx)) (idx + 1)
            (fun c hc => hvalid c (List.mem_cons_of_mem _ hc))
        refine ⟨m', by simpa [writeChunks] using hwc, ?_, ?_⟩
        · intro j hj
          have hj1 : j < idx + 1 ∨ idx + 1 + rest.length ≤ j := by
            rcases hj with hj | hj
            · exact Or.inl (by omega)
            · simp only [List.length_cons] at hj
              exact Or.inr (by omega)
          rw [hfr j hj1]
          rcases hj with hj | hj
          · exact read_write_ne m idx j _ (by omega)
          · exact read_write_ne m idx j _ (by simp at hj; omega)
        · intro k c hk
          cases k with
          | zero =>
              simp only [List.get?_cons_zero, Option.some_inj] at hk
              subst hk
              have : m'.read? (idx + 0) = (m.write idx (symCalldataByte idx)).read? idx := by
                rw [Nat.add_zero]
                exact hfr idx (Or.inl (by omega))
              rw [this, read_write_self]
              simp
          | succ k' =>
              simp only [List.get?_cons_succ] at hk
              have := hpt k' c hk
              rw [show idx + (k' + 1) = idx + 1 + k' from by omega]
              exact this
      · rcases hvalid cb (List.mem_cons_self _ _) with hc | ⟨v, hv⟩
        · exact absurd hc hss
        · obtain ⟨m', hwc, hfr, hpt⟩ :=
            ih (m.write idx (.bvv v 8)) (idx + 1)
              (fun c hc => hvalid c (List.mem_cons_of_mem _ hc))
          refine ⟨m', ?_, ?_, ?_⟩
          · simpa [writeChunks, hss, hv, Bind.bind, Except.bind] using hwc
          · intro j hj
            have hj1 : j < idx + 1 ∨ idx + 1 + rest.length ≤ j := by
              rcases hj with hj | hj
              · exact Or.inl (by omega)
              · simp only [List.length_cons] at hj
                exact Or.inr (by omega)
            rw [hfr j hj1]
            rcases hj with hj | hj
            · exact read_write_ne m idx j _ (by omega)
            · exact read_write_ne m idx j _ (by simp at hj; omega)
          · intro k c hk
            cases k with
            | zero =>
                simp only [List.get?_cons_zero, Option.some_inj] at hk
                subst hk
                have : m'.read? (idx + 0) = (m.write idx (.bvv v 8)).read? idx := by
                  rw [Nat.add_zero]
                  exact hfr idx (Or.inl (by omega))
                rw [this, read_write_self]
                simp [hss, hv, Except.toOption]
            | succ k' =>
                simp only [List.get?_cons_succ] at hk
                have := hpt k' c hk
                rw [show idx + (k' + 1) = idx + 1 + k' from by omega]
                exact this

/-- The symbolic-fill loop: positions in `[start, start + count)` hold the
symbolic calldata byte for their index, positions outside are untouched. -/
theorem writeSymRange_read (count : Nat) :
    ∀ (m : LambdaMem) (start : Nat),
      (∀ j, start ≤ j → j < start + count →
        (writeSymRange m start count).read? j = some (symCalldataByte j))
      ∧ (∀ j, j < start ∨ start + count ≤ j →
        (writeSymRange m start count).read? j = m.read? j) := by
  induction count with
  | zero =>
      intro m start
      exact ⟨fun j h1 h2 => by omega, fun j _ => rfl⟩
  | succ k ih =>
      intro m start
      obtain ⟨hin, hout⟩ := ih (m.write start (symCalldataByte start)) (start + 1)
      constructor
      · intro j h1 h2
        unfold writeSymRange
        by_cases hj : j = start
        · subst hj
          rw [hout j (Or.inl (by omega)), read_write_self]
        · exact hin j (by omega) (by omega)
      · intro j hj
        unfold writeSymRange
        rw [hout j (by omega)]
        exact read_write_ne m start j _ (by omega)

theorem plugin_appendConstraint (st : SEState) (c : Constr) (a sid : Nat)
    (cs : List Constr) (d : Bool)
    (h : st.plugin? "solver" = some ⟨a, sid, .solverData cs d⟩) :
    (st.appendConstraint c).plugin? "solver"
      = some ⟨a, sid, .solverData (cs ++ [c]) d⟩ := by
  unfold SEState.plugin? at h ⊢
  rw [show (st.appendConstraint c).active_plugins.content
      = st.active_plugins.content.map (updSolverEntry (fun cs d => .solverData (cs ++ [c]) d))
      from rfl]
  rw [assocLookup_map_updSolver, h]
  rfl

theorem plugin_defaultPlugins_solver (g : GOpts) (uuid aidBase : Nat) :
    assocLookup (defaultPlugins g uuid aidBase) "solver"
      = some ⟨aidBase + 1, uuid, .solverData [] false⟩ := by
  unfold defaultPlugins
  rw [List.cons_append, assocLookup_cons]
  simp

/-- set_init_ctx on a CALLDATA-only init context with no CALLDATASIZE: the
two calldatasize bounds are appended to the path constraints and the
provided bytes are written (symbolic at `SS`, concrete otherwise). -/
theorem set_init_ctx_calldata_no_size (st0 : SEState) (cdstr : String) (aidcd : Nat)
    (a sid : Nat) (cs : List Constr) (d : Bool)
    (hvalid : ∀ cb ∈ chunk2 (stripZeroX cdstr.data),
        cb = "SS" ∨ ∃ v, parseHex cb = .ok v)
    (hsolver : st0.plugin? "solver" = some ⟨a, sid, .solverData cs d⟩) :
    ∃ st cd, set_init_ctx st0
        ⟨some cdstr, none, none, none, none, none, none, none, none, none⟩ aidcd = .ok st
      ∧ st.calldatasize = some (.bvs s!"CALLDATASIZE_{st0.xid}" 256)
      ∧ st.constraints = cs
          ++ [.ult (.bvs s!"CALLDATASIZE_{st0.xid}" 256)
                (.bvv (st0.MAX_CALLDATA_SIZE + 1) 256),
              .uge (.bvs s!"CALLDATASIZE_{st0.xid}" 256)
                (.bvv (chunk2 (stripZeroX cdstr.data)).length 256)]
      ∧ st.calldata = some cd
      ∧ cd.aid = aidcd
      ∧ ∀ k cb, (chunk2 (stripZeroX cdstr.data)).get? k = some cb →
          cd.content.read? k = (if cb = "SS" then some (symCalldataByte k)
            else (parseHex cb).toOption.map (fun v => BVExpr.bvv v 8)) := by
  obtain ⟨m', hwc, hfr, hpt⟩ := writeChunks_ok (chunk2 (stripZeroX cdstr.data))
    ⟨s!"CALLDATA_{st0.xid}", none, [], st0.uuid, false⟩ 0 hvalid
  have hs1 : SEState.plugin?
      { st0 with calldatasize := some (.bvs s!"CALLDATASIZE_{st0.xid}" 256) } "solver"
      = some ⟨a, sid, .solverData cs d⟩ := hsolver
  have hpl1 := plugin_appendConstraint _
    (.ult (.bvs s!"CALLDATASIZE_{st0.xid}" 256) (.bvv (st0.MAX_CALLDATA_SIZE + 1) 256))
    a sid cs d hs1
  have hcon := constraints_appendConstraint _
    (.uge (.bvs s!"CALLDATASIZE_{st0.xid}" 256)
      (.bvv (chunk2 (stripZeroX cdstr.data)).length 256))
    a sid _ d hpl1
  refine ⟨{ (SEState.appendConstraint
      (SEState.appendConstraint
        { st0 with calldatasize := some (.bvs s!"CALLDATASIZE_{st0.xid}" 256) }
        (.ult (.bvs s!"CALLDATASIZE_{st0.xid}" 256)
          (.bvv (st0.MAX_CALLDATA_SIZE + 1) 256)))
      (.uge (.bvs s!"CALLDATASIZE_{st0.xid}" 256)
        (.bvv (chunk2 (stripZeroX cdstr.data)).length 256))) with
      calldata := some ⟨aidcd, m'⟩ }, ⟨aidcd, m'⟩, ?_, rfl, ?_, rfl, rfl, ?_⟩
  · unfold set_init_ctx initCalldata
    dsimp only []
    rw [hwc]
    rfl
  · exact Eq.trans hcon (by simp)
  · intro k cb hk
    have := hpt k cb hk
    simpa using this

/-- set_init_ctx on a CALLDATA-plus-CALLDATASIZE init context: calldatasize
is pinned to exactly `n`, positions from the provided length up to `n` are
fresh symbolic bytes, and the provided bytes are written on top. -/
theorem set_init_ctx_calldata_with_size (st0 : SEState) (cdstr : String) (n : Nat)
    (aidcd : Nat) (a sid : Nat) (cs : List Constr) (d : Bool)
    (hvalid : ∀ cb ∈ chunk2 (stripZeroX cdstr.data),
        cb = "SS" ∨ ∃ v, parseHex cb = .ok v)
    (hsolver : st0.plugin? "solver" = some ⟨a, sid, .solverData cs d⟩)
    (hn : (chunk2 (stripZeroX cdstr.data)).length ≤ n) :
    ∃ st cd, set_init_ctx st0
        ⟨some cdstr, some n, none, none, none, none, none, none, none, none⟩ aidcd = .ok st
      ∧ st.calldatasize = some (.bvs s!"CALLDATASIZE_{st0.xid}" 256)
      ∧ st.constraints = cs
          ++ [.eq (.bvs s!"CALLDATASIZE_{st0.xid}" 256) (.bvv n 256)]
      ∧ st.calldata = some cd
      ∧ cd.aid = aidcd
      ∧ (∀ k cb, (chunk2 (stripZeroX cdstr.data)).get? k = some cb →
          cd.content.read? k = (if cb = "SS" then some (symCalldataByte k)
            else (parseHex cb).toOption.map (fun v => BVExpr.bvv v 8)))
      ∧ (∀ i, (chunk2 (stripZeroX cdstr.data)).length ≤ i → i < n →
          cd.content.read? i = some (symCalldataByte i)) := by
  obtain ⟨m', hwc, hfr, hpt⟩ := writeChunks_ok (chunk2 (stripZeroX cdstr.data))
    (if (chunk2 (stripZeroX cdstr.data)).length < n then
      writeSymRange ⟨s!"CALLDATA_{st0.xid}", some (.bvv 0 8), [], st0.uuid, false⟩
        (chunk2 (stripZeroX cdstr.data)).length
        (n - (chunk2 (stripZeroX cdstr.data)).length)
    else ⟨s!"CALLDATA_{st0.xid}", some (.bvv 0 8), [], st0.uuid, false⟩) 0 hvalid
  have hs1 : SEState.plugin?
      { st0 with calldatasize := some (.bvs s!"CALLDATASIZE_{st0.xid}" 256) } "solver"
      = some ⟨a, sid, .solverData cs d⟩ := hsolver
  have hcon := constraints_appendConstraint _
    (.eq (.bvs s!"CALLDATASIZE_{st0.xid}" 256) (.bvv n 256)) a sid cs d hs1
  refine ⟨{ (SEState.appendConstraint
      { st0 with calldatasize := some (.bvs s!"CALLDATASIZE_{st0.xid}" 256) }
      (.eq (.bvs s!"CALLDATASIZE_{st0.xid}" 256) (.bvv n 256))) with
      calldata := some ⟨aidcd, m'⟩, MAX_CALLDATA_SIZE := n },
    ⟨aidcd, m'⟩, ?_, rfl, ?_, rfl, rfl, ?_, ?_⟩
  · unfold set_init_ctx initCalldata
    dsimp only [SEState.add_constraint, SEState.appendConstraint]
    rw [if_pos hn, hwc]
    rfl
  · exact hcon
  · intro k cb hk
    have := hpt k cb hk
    simpa using this
  · intro i hiL hin
    have hfill : (chunk2 (stripZeroX cdstr.data)).length < n := by omega
    have hframe := hfr i (Or.inr (by simpa using hiL))
    rw [hframe, if_pos hfill]
    obtain ⟨hin', _⟩ := writeSymRange_read
      (n - (chunk2 (stripZeroX cdstr.data)).length)
      ⟨s!"CALLDATA_{st0.xid}", some (.bvv 0 8), [], st0.uuid, false⟩
      (chunk2 (stripZeroX cdstr.data)).length
    exact hin' i hiL (by omega)

/-- C9: the CALLDATA initialization scheme of state construction.  With
CALLDATA provided and no CALLDATASIZE, calldatasize is constrained
unsigned-≥ the number of provided bytes and unsigned-< MAX_CALLDATA_SIZE+1
(and every provided byte is written, symbolic at an `SS` token and concrete
otherwise).  With CALLDATASIZE = n also provided (at least the provided
length, as the source asserts), calldatasize is constrained equal to
exactly n, every position from the provided length up to n-1 holds a fresh
symbolic byte CALLDATA_BYTE_i, and each provided byte is written as
before. -/
theorem calldata_init_ctx_scheme
    (xid : Nat) (p : Project) (opts : Option (List String)) (mcs : Option Nat) (pcs : Bool)
    (g : GOpts) (nowTs : Nat) (uuid aidBase : Nat) (cdstr : String)
    (hvalid : ∀ cb ∈ chunk2 (stripZeroX cdstr.data),
        cb = "SS" ∨ ∃ v, parseHex cb = .ok v) :
    (∃ st cd, mkState xid p
        ⟨some cdstr, none, none, none, none, none, none, none, none, none⟩
        opts mcs pcs g nowTs uuid aidBase = .ok st
      ∧ st.calldatasize = some (.bvs s!"CALLDATASIZE_{xid}" 256)
      ∧ st.constraints =
          [.ult (.bvs s!"CALLDATASIZE_{xid}" 256)
              (.bvv (pyOrNat mcs g.MAX_CALLDATA_SIZE + 1) 256),
           .uge (.bvs s!"CALLDATASIZE_{xid}" 256)
              (.bvv (chunk2 (stripZeroX cdstr.data)).length 256)]
      ∧ st.calldata = some cd
      ∧ (∀ k cb, (chunk2 (stripZeroX cdstr.data)).get? k = some cb →
          cd.content.read? k = (if cb = "SS" then some (symCalldataByte k)
            else (parseHex cb).toOption.map (fun v => BVExpr.bvv v 8))))
    ∧ (∀ n, (chunk2 (stripZeroX cdstr.data)).length ≤ n →
        ∃ st cd, mkState xid p
            ⟨some cdstr, some n, none, none, none, none, none, none, none, none⟩
            opts mcs pcs g nowTs uuid aidBase = .ok st
          ∧ st.calldatasize = some (.bvs s!"CALLDATASIZE_{xid}" 256)
          ∧ st.constraints = [.eq (.bvs s!"CALLDATASIZE_{xid}" 256) (.bvv n 256)]
          ∧ st.calldata = some cd
          ∧ (∀ k cb, (chunk2 (stripZeroX cdstr.data)).get? k = some cb →
              cd.content.read? k = (if cb = "SS" then some (symCalldataByte k)
                else (parseHex cb).toOption.map (fun v => BVExpr.bvv v 8)))
          ∧ (∀ i, (chunk2 (stripZeroX cdstr.data)).length ≤ i → i < n →
              cd.content.read? i = some (symCalldataByte i))) := by
  constructor
  · obtain ⟨st, cd, hrun, h1, h2, h3, _, h5⟩ := set_init_ctx_calldata_no_size
      (initStateCore xid p opts mcs pcs g nowTs uuid aidBase) cdstr (aidBase + 12)
      (aidBase + 1) uuid [] false hvalid (plugin_defaultPlugins_solver g uuid aidBase)
    exact ⟨st, cd, hrun, h1, h2, h3, h5⟩
  · intro n hn
    obtain ⟨st, cd, hrun, h1, h2, h3, _, h5, h6⟩ := set_init_ctx_calldata_with_size
      (initStateCore xid p opts mcs pcs g nowTs uuid aidBase) cdstr n (aidBase + 12)
      (aidBase + 1) uuid [] false hvalid (plugin_defaultPlugins_solver g uuid aidBase) hn
    exact ⟨st, cd, hrun, h1, h2, h3, h5, h6⟩

/-- Witness for C9 with CALLDATA "0xSS1f" (one symbolic byte, one concrete
byte 0x1f) in both scenarios; the with-CALLDATASIZE scenario is instantiated
at size 4, exercising the symbolic fill of positions 2 and 3. -/
theorem calldata_init_ctx_scheme_witness :
    (∀ cb ∈ chunk2 (stripZeroX "0xSS1f".data), cb = "SS" ∨ ∃ v, parseHex cb = .ok v)
    ∧ ((∃ st cd, mkState 1 sampleProject
          ⟨some "0xSS1f", none, none, none, none, none, none, none, none, none⟩
          none (some 256) false ⟨false, 1024, false⟩ 1700000000 100 0 = .ok st
        ∧ st.calldatasize = some (.bvs s!"CALLDATASIZE_{(1 : Nat)}" 256)
        ∧ st.constraints =
            [.ult (.bvs s!"CALLDATASIZE_{(1 : Nat)}" 256) (.bvv (256 + 1) 256),
             .uge (.bvs s!"CALLDATASIZE_{(1 : Nat)}" 256)
                (.bvv (chunk2 (stripZeroX "0xSS1f".data)).length 256)]
        ∧ st.calldata = some cd
        ∧ (∀ k cb, (chunk2 (stripZeroX "0xSS1f".data)).get? k = some cb →
            cd.content.read? k = (if cb = "SS" then some (symCalldataByte k)
              else (parseHex cb).toOption.map (fun v => BVExpr.bvv v 8))))
      ∧ (∀ n, (chunk2 (stripZeroX "0xSS1f".data)).length ≤ n →
          ∃ st cd, mkState 1 sampleProject
              ⟨some "0xSS1f", some n, none, none, none, none, none, none, none, none⟩
              none (some 256) false ⟨false, 1024, false⟩ 1700000000 100 0 = .ok st
            ∧ st.calldatasize = some (.bvs s!"CALLDATASIZE_{(1 : Nat)}" 256)
            ∧ st.constraints = [.eq (.bvs s!"CALLDATASIZE_{(1 : Nat)}" 256) (.bvv n 256)]
            ∧ st.calldata = some cd
            ∧ (∀ k cb, (chunk2 (stripZeroX "0xSS1f".data)).get? k = some cb →
                cd.content.read? k = (if cb = "SS" then some (symCalldataByte k)
                  else (parseHex cb).toOption.map (fun v => BVExpr.bvv v 8)))
            ∧ (∀ i, (chunk2 (stripZeroX "0xSS1f".data)).length ≤ i → i < n →
                cd.content.read? i = some (symCalldataByte i)))) := by
  have hvalid : ∀ cb ∈ chunk2 (stripZeroX "0xSS1f".data),
      cb = "SS" ∨ ∃ v, parseHex cb = .ok v := by
    intro cb hc
    rw [show chunk2 (stripZeroX "0xSS1f".data) = ["SS", "1f"] from by decide] at hc
    simp only [List.mem_cons, List.mem_singleton] at hc
    rcases hc with hc | hc | hc
    · exact Or.inl hc
    · subst hc
      exact Or.inr ⟨31, by decide⟩
    · simp at hc
  exact ⟨hvalid, calldata_init_ctx_scheme 1 sampleProject none (some 256) false
    ⟨false, 1024, false⟩ 1700000000 100 0 "0xSS1f" hvalid⟩

/-! ### C10 -/

/-- All object identities reachable from a state. -/
def SEState.allAids (s : SEState) : List Nat :=
  [s.trace.aid, s.memory.aid, s.storage.aid, s.registers.aid, s.ctx.aid, s.options.aid,
   s.callstack.aid, s.returndata.aid, s.sha_observed.aid, s.active_plugins.aid]
  ++ (match s.calldata with | some cd => [cd.aid] | none => [])
  ++ s.sha_observed.content.map ShaObs.aid
  ++ s.active_plugins.content.map (fun q => q.2.aid)

theorem cloneShas_proj (u : Nat) (l : List ShaObs) :
    ∀ base, (cloneShas u base l).map (fun o => (o.inputs, o.output))
      = l.map (fun o => (o.inputs, o.output)) := by
  induction l with
  | nil => intro _; rfl
  | cons o rest ih => intro base; simp [cloneShas, ih (base + 1)]

theorem cloneShas_stateId (u : Nat) (l : List ShaObs) :
    ∀ base, ∀ o ∈ cloneShas u base l, o.stateId = u := by
  induction l with
  | nil => intro _ o ho; simp [cloneShas] at ho
  | cons o rest ih =>
      intro base o' ho'
      rcases List.mem_cons.mp ho' with h | h
      · subst h; rfl
      · exact ih (base + 1) o' h

theorem clonePlugins_proj (u : Nat) (l : List (String × Plugin)) :
    ∀ base, (clonePlugins u base l).map (fun q => (q.1, q.2.pdata))
      = l.map (fun q => (q.1, q.2.pdata)) := by
  induction l with
  | nil => intro _; rfl
  | cons q rest ih =>
      intro base
      obtain ⟨n, pl⟩ := q
      simp [clonePlugins, ih (base + 1)]

theorem clonePlugins_stateId (u : Nat) (l : List (String × Plugin)) :
    ∀ base, ∀ q ∈ clonePlugins u base l, q.2.stateId = u := by
  induction l with
  | nil => intro _ q hq; simp [clonePlugins] at hq
  | cons q0 rest ih =>
      intro base q hq
      obtain ⟨n, pl⟩ := q0
      rcases List.mem_cons.mp hq with h | h
      · subst h; rfl
      · exact ih (base + 1) q h

/-- The independence properties C10 asserts of `t = s.copy()` with a fresh
uuid `u` and fresh identities from `base`; `cd0` is `s`'s calldata store. -/
def copyIndependenceProp (s : SEState) (u base : Nat) (cd0 : Tagged LambdaMem) : Prop :=
  let t := copyState s u base
  (t.registers.content = s.registers.content ∧ t.registers.aid ≠ s.registers.aid
    ∧ (∀ f, writeThrough t.registers.aid f s.registers = s.registers)
    ∧ (∀ f, writeThrough s.registers.aid f t.registers = t.registers))
  ∧ (t.ctx.content = s.ctx.content ∧ t.ctx.aid ≠ s.ctx.aid
    ∧ (∀ f, writeThrough t.ctx.aid f s.ctx = s.ctx)
    ∧ (∀ f, writeThrough s.ctx.aid f t.ctx = t.ctx))
  ∧ (t.callstack.content = s.callstack.content ∧ t.callstack.aid ≠ s.callstack.aid
    ∧ (∀ f, writeThrough t.callstack.aid f s.callstack = s.callstack)
    ∧ (∀ f, writeThrough s.callstack.aid f t.callstack = t.callstack))
  ∧ (t.returndata.content = s.returndata.content ∧ t.returndata.aid ≠ s.returndata.aid
    ∧ (∀ f, writeThrough t.returndata.aid f s.returndata = s.returndata)
    ∧ (∀ f, writeThrough s.returndata.aid f t.returndata = t.returndata))
  ∧ (t.trace.content = s.trace.content ∧ t.trace.aid ≠ s.trace.aid
    ∧ (∀ f, writeThrough t.trace.aid f s.trace = s.trace)
    ∧ (∀ f, writeThrough s.trace.aid f t.trace = t.trace))
  ∧ (t.memory.content = { s.memory.content with stateId := t.uuid }
    ∧ t.memory.aid ≠ s.memory.aid)
  ∧ (t.storage.content = { s.storage.content with stateId := t.uuid }
    ∧ t.storage.aid ≠ s.storage.aid)
  ∧ (∃ cd, t.calldata = some cd
    ∧ cd.content = { cd0.content with stateId := t.uuid } ∧ cd.aid ≠ cd0.aid)
  ∧ (t.sha_observed.content.map (fun o => (o.inputs, o.output))
      = s.sha_observed.content.map (fun o => (o.inputs, o.output))
    ∧ ∀ o ∈ t.sha_observed.content, o.stateId = t.uuid)
  ∧ (t.active_plugins.content.map (fun q => (q.1, q.2.pdata))
      = s.active_plugins.content.map (fun q => (q.1, q.2.pdata))
    ∧ ∀ q ∈ t.active_plugins.content, q.2.stateId = t.uuid)
  ∧ t.uuid = u ∧ t.uuid ≠ s.uuid ∧ t.xid = s.xid

/-- C10: for any state `s` whose calldata is initialized, given a uuid `u`
fresh per the monotone generator and object identities `base` beyond every
identity reachable from `s`, `t = s.copy()` is an independent state exactly
as the claim lists: registers, ctx, callstack, returndata and trace are
fresh containers with the same content (mutating through one identity never
affects the other container); memory, storage, calldata, each sha
observation and each plugin are cloned with their back-references set to
`t`; `t.uuid` is fresh and `t.xid = s.xid`. -/
theorem copy_independence
    (s : SEState) (u base : Nat) (cd0 : Tagged LambdaMem)
    (hfresh : ∀ a ∈ s.allAids, a < base)
    (huuid : s.uuid < u)
    (hcd : s.calldata = some cd0) :
    copyIndependenceProp s u base cd0 := by
  have hmem : ∀ a ∈ s.allAids, a < base := hfresh
  have hreg := hfresh s.registers.aid (by simp [SEState.allAids])
  have hctx := hfresh s.ctx.aid (by simp [SEState.allAids])
  have hcall := hfresh s.callstack.aid (by simp [SEState.allAids])
  have hret := hfresh s.returndata.aid (by simp [SEState.allAids])
  have htr := hfresh s.trace.aid (by simp [SEState.allAids])
  have hmemo := hfresh s.memory.aid (by simp [SEState.allAids])
  have hsto := hfresh s.storage.aid (by simp [SEState.allAids])
  have hcda := hfresh cd0.aid (by simp [SEState.allAids, hcd])
  unfold copyIndependenceProp
  refine ⟨⟨rfl, by simp [copyState]; omega, ?_, ?_⟩,
          ⟨rfl, by simp [copyState]; omega, ?_, ?_⟩,
          ⟨rfl, by simp [copyState]; omega, ?_, ?_⟩,
          ⟨rfl, by simp [copyState]; omega, ?_, ?_⟩,
          ⟨rfl, by simp [copyState]; omega, ?_, ?_⟩,
          ⟨rfl, by simp [copyState]; omega⟩,
          ⟨rfl, by simp [copyState]; omega⟩,
          ?_, ⟨?_, ?_⟩, ⟨?_, ?_⟩, rfl, by show u ≠ s.uuid; omega, rfl⟩
  · intro f
    unfold writeThrough
    rw [if_neg]
    simp [copyState]
    omega
  · intro f
    unfold writeThrough
    rw [if_neg]
    simp [copyState]
    omega
  · intro f
    unfold writeThrough
    rw [if_neg]
    simp [copyState]
    omega
  · intro f
    unfold writeThrough
    rw [if_neg]
    simp [copyState]
    omega
  · intro f
    unfold writeThrough
    rw [if_neg]
    simp [copyState]
    omega
  · intro f
    unfold writeThrough
    rw [if_neg]
    simp [copyState]
    omega
  · intro f
    unfold writeThrough
    rw [if_neg]
    simp [copyState]
    omega
  · intro f
    unfold writeThrough
    rw [if_neg]
    simp [copyState]
    omega
  · intro f
    unfold writeThrough
    rw [if_neg]
    simp [copyState]
    omega
  · intro f
    unfold writeThrough
    rw [if_neg]
    simp [copyState]
    omega
  · refine ⟨⟨base + 9 + s.sha_observed.content.length,
      { cd0.content with stateId := u }⟩, ?_, rfl,
      by show base + 9 + s.sha_observed.content.length ≠ cd0.aid; omega⟩
    show (copyState s u base).calldata = _
    rw [show (copyState s u base).calldata
        = s.calldata.map (fun cd =>
            (⟨base + 9 + s.sha_observed.content.length,
              { cd.content with stateId := u }⟩ : Tagged LambdaMem)) from rfl, hcd]
    rfl
  · exact cloneShas_proj u s.sha_observed.content (base + 9)
  · exact cloneShas_stateId u s.sha_observed.content (base + 9)
  · exact clonePlugins_proj u s.active_plugins.content
      (base + 11 + s.sha_observed.content.length)
  · exact clonePlugins_stateId u s.active_plugins.content
      (base + 11 + s.sha_observed.content.length)

/-- Witness for C10 at the concrete `wState` (object identities all below
60, uuid 100), cloned with fresh uuid 101 and identities from 60. -/
theorem copy_independence_witness :
    (∀ a ∈ wState.allAids, a < 60)
    ∧ wState.uuid < 101
    ∧ wState.calldata = some ⟨8, ⟨"CALLDATA_1", none, [], 100, false⟩⟩
    ∧ copyIndependenceProp wState 101 60 ⟨8, ⟨"CALLDATA_1", none, [], 100, false⟩⟩ := by
  refine ⟨by decide, by decide, by decide, ?_⟩
  exact copy_independence wState 101 60 ⟨8, ⟨"CALLDATA_1", none, [], 100, false⟩⟩
    (by decide) (by decide) (by decide)

end Greed
